import Mathlib

/-!
# Boost.GreenThread: bounded concurrent queue, task objects, fiber-specific storage

A shallow embedding of

* `include/boost/green_thread/concurrent_queue.hpp` (`basic_concurrent_queue`),
* `include/boost/green_thread/future/detail/task_object.hpp` (`task_object::run`),
* `include/boost/green_thread/tss.hpp` (`thread_specific_ptr`),

followed by the properties proved about them.

## How the queue is embedded

Every member function of `basic_concurrent_queue` takes `the_mutex_` on entry and
holds it until it returns, except inside a condition-variable wait, which
releases the mutex, suspends the calling fiber and re-acquires the mutex
before it returns.  A member function is therefore a function of the queue
fields it finds, and the only places where other fibers can touch the queue
are the waits.  A blocking member function takes the list of its wake-ups as
an argument: each wake-up says what the other fibers did to the queue while
the caller was suspended (and, for a timed wait, the `cv_status` the wait
reported).  A wake-up in which nothing happened is a spurious wake-up.  When
the list is used up and the loop condition still holds, the caller is
suspended in a wait that has not returned.

`std::queue<T>` is a `List T` with the front of the queue at the head,
`size_type` is `Nat`, and an iterator range `[first, last)` is the list of
the elements in it.
-/

namespace boost.green_thread

/-! ## Condition variable -/

/-- Status reported by a timed wait (`boost::cv_status`). -/
inductive cv_status where
  | no_timeout
  | timeout
deriving DecidableEq, Repr

/-- Modelled from the spec: `CVType` (`condition_variable`), whose `notify_one`,
`notify_all` and `wait` are declared in `condition_variable.hpp` and defined
outside the sources at hand.  The queue only ever signals its two condition
variables and waits on them; the object is represented by the number of
`notify_one` and `notify_all` calls made on it, and what a wait returns with
is supplied by the caller's wake-ups. -/
structure CVType where
  notify_one_calls : Nat
  notify_all_calls : Nat
deriving DecidableEq, Repr

/-- A condition variable nobody has signalled yet. -/
def CVType.ctor : CVType := ⟨0, 0⟩

/-- Modelled from the spec: `notify_one()` moves one waiter to Ready; here it is counted. -/
def CVType.notify_one (cv : CVType) : CVType :=
  { cv with notify_one_calls := cv.notify_one_calls + 1 }

/-- Modelled from the spec: `notify_all()` moves all waiters to Ready; here it is counted. -/
def CVType.notify_all (cv : CVType) : CVType :=
  { cv with notify_all_calls := cv.notify_all_calls + 1 }

/-! ## The queue -/

/-- The data members of `basic_concurrent_queue` (`the_mutex_` is held by
whoever is running a member function and has no field of its own). -/
structure basic_concurrent_queue (T : Type) where
  opened_ : Bool
  capacity_ : Nat
  full_cv_ : CVType
  empty_cv_ : CVType
  the_queue_ : List T
deriving DecidableEq, Repr

/-- The largest `size_type`, `size_type(-1)`: the default capacity. -/
def size_type_max : Nat := 2 ^ 64 - 1

/-- Member `open()`: sets `opened_` and returns it. -/
def basic_concurrent_queue.open {T : Type} (q : basic_concurrent_queue T) :
    Bool × basic_concurrent_queue T :=
  let q1 := { q with opened_ := true }
  (q1.opened_, q1)

namespace basic_concurrent_queue

variable {T : Type}

/-- Constructor `basic_concurrent_queue(capacity, auto_open)`. -/
def ctor (capacity : Nat) (auto_open : Bool) : basic_concurrent_queue T :=
  { opened_ := auto_open
    capacity_ := capacity
    full_cv_ := CVType.ctor
    empty_cv_ := CVType.ctor
    the_queue_ := [] }

/-- Member `close()`: clears `opened_` and notifies all waiters of both conditions. -/
def close (q : basic_concurrent_queue T) : basic_concurrent_queue T :=
  { q with
    opened_ := false
    full_cv_ := q.full_cv_.notify_all
    empty_cv_ := q.empty_cv_.notify_all }

/-- Member `is_open()`. -/
def is_open (q : basic_concurrent_queue T) : Bool := q.opened_

/-- Member `empty()`. -/
def empty (q : basic_concurrent_queue T) : Bool := q.the_queue_.isEmpty

/-- Member `full()`. -/
def full (q : basic_concurrent_queue T) : Bool := decide (q.the_queue_.length ≥ q.capacity_)

/-- Member `size()`. -/
def size (q : basic_concurrent_queue T) : Nat := q.the_queue_.length

/-- Member `capacity()`. -/
def capacity (q : basic_concurrent_queue T) : Nat := q.capacity_

/-- The two statements `the_queue_.push(data); empty_cv_.notify_one();` that
every push member ends with. -/
def push_and_notify (q : basic_concurrent_queue T) (data : T) : basic_concurrent_queue T :=
  { q with
    the_queue_ := q.the_queue_ ++ [data]
    empty_cv_ := q.empty_cv_.notify_one }

/-- The statements `the_queue_.pop(); full_cv_.notify_one();` that follow the
`std::swap(popped_value, the_queue_.front())` of every pop member; `rest` is
the queue without its front. -/
def pop_and_notify (q : basic_concurrent_queue T) (rest : List T) : basic_concurrent_queue T :=
  { q with
    the_queue_ := rest
    full_cv_ := q.full_cv_.notify_one }

/-- Member `try_push(data)` (both overloads have the same body). -/
def try_push (q : basic_concurrent_queue T) (data : T) : Bool × basic_concurrent_queue T :=
  if !q.opened_ then
    (false, q)
  else if q.the_queue_.length ≥ q.capacity_ then
    (false, q)
  else
    (true, q.push_and_notify data)

/-- The loop of `push_some`:
`for( ; first!=last && the_queue_.size()<capacity_; ++first)`.  Returns the
range that is left, `[first, last)`, and the queue. -/
def push_some_loop : basic_concurrent_queue T → List T → List T × basic_concurrent_queue T
  | q, [] => ([], q)
  | q, x :: rest =>
    if q.the_queue_.length < q.capacity_ then
      push_some_loop (q.push_and_notify x) rest
    else
      (x :: rest, q)

/-- Member `push_some(first, last)`; the result is the returned iterator, given
as the range `[first, last)` it starts. -/
def push_some (q : basic_concurrent_queue T) (xs : List T) : List T × basic_concurrent_queue T :=
  if !q.opened_ then
    (xs, q)
  else
    push_some_loop q xs

/-- The loop of `push_all`: `while(first!=last)`. -/
def push_all_loop : basic_concurrent_queue T → List T → basic_concurrent_queue T
  | q, [] => q
  | q, x :: rest => push_all_loop (q.push_and_notify x) rest

/-- Member `push_all(first, last)`. -/
def push_all (q : basic_concurrent_queue T) (xs : List T) : Bool × basic_concurrent_queue T :=
  if !q.opened_ then
    (false, q)
  else
    (true, push_all_loop q xs)

/-- Member `try_pop(popped_value)`: the result is the returned flag, the value
of the reference argument afterwards, and the queue. -/
def try_pop (q : basic_concurrent_queue T) (popped_value : T) :
    Bool × T × basic_concurrent_queue T :=
  match q.the_queue_ with
  | [] => (false, popped_value, q)
  | front :: rest => (true, front, q.pop_and_notify rest)

end basic_concurrent_queue

/-! ## Waiting

While a fiber is suspended in `full_cv_.wait(lock)` or `empty_cv_.wait(lock)`
the mutex is free and other fibers run member functions of the same queue.
Such a member function changes the queue in one critical section only, its
last one, and what it does there is what the non-blocking member of the same
kind does: the last critical section of `push` and of the timed pushes is
that of `try_push`, the last one of `pop` and of the timed pops is that of
`try_pop`.  The interference of the other fibers during a wait is therefore a
list of non-blocking member calls. -/

/-- A member call made by another fiber while the caller is suspended. -/
inductive action (T : Type) where
  | open
  | close
  | try_push (data : T)
  | push_some (xs : List T)
  | push_all (xs : List T)
  | try_pop (popped_value : T)
deriving DecidableEq, Repr

/-- What a member call did to the contents: it took `x` into the queue, or it
handed `x` out of the queue to its caller. -/
inductive event (T : Type) where
  | accepted (x : T)
  | delivered (x : T)
deriving DecidableEq, Repr

/-- The values taken into the queue, in the order in which they were taken. -/
def event.accepted_values {T : Type} : List (event T) → List T
  | [] => []
  | event.accepted x :: es => x :: event.accepted_values es
  | event.delivered _ :: es => event.accepted_values es

/-- The values handed out of the queue, in the order in which they were handed out. -/
def event.delivered_values {T : Type} : List (event T) → List T
  | [] => []
  | event.accepted _ :: es => event.delivered_values es
  | event.delivered x :: es => x :: event.delivered_values es

namespace basic_concurrent_queue

variable {T : Type}

/-- One member call of another fiber: the queue it leaves and what it did to
the contents, read off the call's result. -/
def act (q : basic_concurrent_queue T) : action T → basic_concurrent_queue T × List (event T)
  | action.open => ((q.open).2, [])
  | action.close => (q.close, [])
  | action.try_push data =>
    let r := q.try_push data
    (r.2, if r.1 then [event.accepted data] else [])
  | action.push_some xs =>
    let r := q.push_some xs
    (r.2, (xs.take (xs.length - r.1.length)).map event.accepted)
  | action.push_all xs =>
    let r := q.push_all xs
    (r.2, if r.1 then xs.map event.accepted else [])
  | action.try_pop popped_value =>
    let r := q.try_pop popped_value
    (r.2.2, if r.1 then [event.delivered r.2.1] else [])

/-- The member calls of the other fibers during one wait, in the order in
which they got the mutex. -/
def interfere : basic_concurrent_queue T → List (action T) →
    basic_concurrent_queue T × List (event T)
  | q, [] => (q, [])
  | q, a :: as =>
    let r1 := q.act a
    let r2 := interfere r1.1 as
    (r2.1, r1.2 ++ r2.2)

end basic_concurrent_queue

/-- One return of a timed wait: what the other fibers did meanwhile and the
status the wait reports. -/
structure wakeup (T : Type) where
  others : List (action T)
  status : cv_status
deriving DecidableEq, Repr

/-- Where a wait loop stands: the queue the caller sees, how many waits have
returned, whether the caller is suspended in a wait that has not returned,
and what the other fibers did to the contents during the waits. -/
structure waited (T : Type) where
  q : basic_concurrent_queue T
  waits : Nat
  suspended : Bool
  others : List (event T)
deriving DecidableEq, Repr

namespace basic_concurrent_queue

variable {T : Type}

/-- The loop `while(cond) { cv.wait(lock); }`, one wake-up per wait. -/
def wait_loop (cond : basic_concurrent_queue T → Bool) :
    basic_concurrent_queue T → List (List (action T)) → waited T
  | q, [] => ⟨q, 0, cond q, []⟩
  | q, w :: ws =>
    if cond q then
      let r1 := q.interfere w
      let r2 := wait_loop cond r1.1 ws
      ⟨r2.q, r2.waits + 1, r2.suspended, r1.2 ++ r2.others⟩
    else
      ⟨q, 0, false, []⟩

/-- The loop `while(cond) { ret=cv.wait_for(lock, timeout_duration); }` (or
`wait_until`), one wake-up per wait; `ret` is the status held on entry. -/
def timed_wait_loop (cond : basic_concurrent_queue T → Bool) :
    cv_status → basic_concurrent_queue T → List (wakeup T) → cv_status × waited T
  | ret, q, [] => (ret, ⟨q, 0, cond q, []⟩)
  | ret, q, w :: ws =>
    if cond q then
      let r1 := q.interfere w.others
      let r2 := timed_wait_loop cond w.status r1.1 ws
      (r2.1, ⟨r2.2.q, r2.2.waits + 1, r2.2.suspended, r1.2 ++ r2.2.others⟩)
    else
      (ret, ⟨q, 0, false, []⟩)

end basic_concurrent_queue

/-- Result of a blocking push member: the returned flag (`none` while the call
is suspended in a wait that has not returned), the queue, the number of waits
that returned, and what the other fibers did to the contents meanwhile. -/
structure push_result (T : Type) where
  ret : Option Bool
  q : basic_concurrent_queue T
  waits : Nat
  others : List (event T)
deriving DecidableEq, Repr

/-- Result of a blocking pop member: as `push_result`, with the value of the
reference argument `popped_value` afterwards. -/
structure pop_result (T : Type) where
  ret : Option Bool
  popped_value : T
  q : basic_concurrent_queue T
  waits : Nat
  others : List (event T)
deriving DecidableEq, Repr

namespace basic_concurrent_queue

variable {T : Type}

/-- Loop condition of the push members: `(the_queue_.size()>=capacity_) && opened_`. -/
def full_and_opened (q : basic_concurrent_queue T) : Bool :=
  decide (q.the_queue_.length ≥ q.capacity_) && q.opened_

/-- Loop condition of the pop members: `the_queue_.empty() && opened_`. -/
def empty_and_opened (q : basic_concurrent_queue T) : Bool :=
  q.the_queue_.isEmpty && q.opened_

/-- Member `push(data)` (both overloads have the same body). -/
def push (q : basic_concurrent_queue T) (data : T) (ws : List (List (action T))) :
    push_result T :=
  if !q.opened_ then
    ⟨some false, q, 0, []⟩
  else
    let w := wait_loop full_and_opened q ws
    if w.suspended then
      ⟨none, w.q, w.waits, w.others⟩
    else if !w.q.opened_ then
      ⟨some false, w.q, w.waits, w.others⟩
    else
      ⟨some true, w.q.push_and_notify data, w.waits, w.others⟩

/-- Member `try_push_for(data, timeout_duration)` (both overloads have the same
body).  The duration decides when a wait times out, which the wake-ups say. -/
def try_push_for (q : basic_concurrent_queue T) (data : T) (ws : List (wakeup T)) :
    push_result T :=
  if !q.opened_ then
    ⟨some false, q, 0, []⟩
  else
    let r := timed_wait_loop full_and_opened cv_status.no_timeout q ws
    let ret := r.1
    let w := r.2
    if w.suspended then
      ⟨none, w.q, w.waits, w.others⟩
    else if !w.q.opened_ then
      ⟨some false, w.q, w.waits, w.others⟩
    else if ret = cv_status.no_timeout then
      ⟨some true, w.q.push_and_notify data, w.waits, w.others⟩
    else
      ⟨some false, w.q, w.waits, w.others⟩

/-- Member `try_push_until(data, timeout_time)` (both overloads; the second one
waits with `full_cv_.wait_for(lock, timeout_time)`, a timed wait all the same). -/
def try_push_until (q : basic_concurrent_queue T) (data : T) (ws : List (wakeup T)) :
    push_result T :=
  if !q.opened_ then
    ⟨some false, q, 0, []⟩
  else
    let r := timed_wait_loop full_and_opened cv_status.no_timeout q ws
    let ret := r.1
    let w := r.2
    if w.suspended then
      ⟨none, w.q, w.waits, w.others⟩
    else if !w.q.opened_ then
      ⟨some false, w.q, w.waits, w.others⟩
    else if ret = cv_status.no_timeout then
      ⟨some true, w.q.push_and_notify data, w.waits, w.others⟩
    else
      ⟨some false, w.q, w.waits, w.others⟩

/-- Member `pop(popped_value)`. -/
def pop (q : basic_concurrent_queue T) (popped_value : T) (ws : List (List (action T))) :
    pop_result T :=
  let w := wait_loop empty_and_opened q ws
  if w.suspended then
    ⟨none, popped_value, w.q, w.waits, w.others⟩
  else
    match w.q.the_queue_ with
    | [] => ⟨some false, popped_value, w.q, w.waits, w.others⟩
    | front :: rest => ⟨some true, front, w.q.pop_and_notify rest, w.waits, w.others⟩

/-- Member `try_pop_for(popped_value, timeout_duration)`. -/
def try_pop_for (q : basic_concurrent_queue T) (popped_value : T) (ws : List (wakeup T)) :
    pop_result T :=
  let r := timed_wait_loop empty_and_opened cv_status.no_timeout q ws
  let ret := r.1
  let w := r.2
  if w.suspended then
    ⟨none, popped_value, w.q, w.waits, w.others⟩
  else
    match w.q.the_queue_ with
    | [] => ⟨some false, popped_value, w.q, w.waits, w.others⟩
    | front :: rest =>
      if ret = cv_status.no_timeout then
        ⟨some true, front, w.q.pop_and_notify rest, w.waits, w.others⟩
      else
        ⟨some false, popped_value, w.q, w.waits, w.others⟩

/-- Member `try_pop_until(popped_value, timeout_time)`. -/
def try_pop_until (q : basic_concurrent_queue T) (popped_value : T) (ws : List (wakeup T)) :
    pop_result T :=
  let r := timed_wait_loop empty_and_opened cv_status.no_timeout q ws
  let ret := r.1
  let w := r.2
  if w.suspended then
    ⟨none, popped_value, w.q, w.waits, w.others⟩
  else
    match w.q.the_queue_ with
    | [] => ⟨some false, popped_value, w.q, w.waits, w.others⟩
    | front :: rest =>
      if ret = cv_status.no_timeout then
        ⟨some true, front, w.q.pop_and_notify rest, w.waits, w.others⟩
      else
        ⟨some false, popped_value, w.q, w.waits, w.others⟩

end basic_concurrent_queue

/-! ## Sequences of member calls -/

/-- A call of a public member of the queue; a blocking member comes with its
wake-ups. -/
inductive call (T : Type) where
  | open
  | close
  | push (data : T) (ws : List (List (action T)))
  | push_some (xs : List T)
  | push_all (xs : List T)
  | try_push (data : T)
  | try_push_for (data : T) (ws : List (wakeup T))
  | try_push_until (data : T) (ws : List (wakeup T))
  | pop (popped_value : T) (ws : List (List (action T)))
  | try_pop (popped_value : T)
  | try_pop_for (popped_value : T) (ws : List (wakeup T))
  | try_pop_until (popped_value : T) (ws : List (wakeup T))
deriving DecidableEq, Repr

/-- What a blocking push did to the contents, the other fibers first. -/
def push_result.events {T : Type} (r : push_result T) (data : T) : List (event T) :=
  r.others ++ (if r.ret = some true then [event.accepted data] else [])

/-- What a blocking pop did to the contents, the other fibers first. -/
def pop_result.events {T : Type} (r : pop_result T) : List (event T) :=
  r.others ++ (if r.ret = some true then [event.delivered r.popped_value] else [])

namespace basic_concurrent_queue

variable {T : Type}

/-- One member call: the queue it leaves (for a call that stays suspended, the
queue as the other fibers left it) and what happened to the contents. -/
def exec (q : basic_concurrent_queue T) : call T → basic_concurrent_queue T × List (event T)
  | call.open => q.act action.open
  | call.close => q.act action.close
  | call.push data ws =>
    let r := q.push data ws
    (r.q, r.events data)
  | call.push_some xs => q.act (action.push_some xs)
  | call.push_all xs => q.act (action.push_all xs)
  | call.try_push data => q.act (action.try_push data)
  | call.try_push_for data ws =>
    let r := q.try_push_for data ws
    (r.q, r.events data)
  | call.try_push_until data ws =>
    let r := q.try_push_until data ws
    (r.q, r.events data)
  | call.pop popped_value ws =>
    let r := q.pop popped_value ws
    (r.q, r.events)
  | call.try_pop popped_value => q.act (action.try_pop popped_value)
  | call.try_pop_for popped_value ws =>
    let r := q.try_pop_for popped_value ws
    (r.q, r.events)
  | call.try_pop_until popped_value ws =>
    let r := q.try_pop_until popped_value ws
    (r.q, r.events)

/-- A sequence of member calls, each started when the one before has returned
or has been left suspended. -/
def run : basic_concurrent_queue T → List (call T) → basic_concurrent_queue T × List (event T)
  | q, [] => (q, [])
  | q, c :: cs =>
    let r1 := q.exec c
    let r2 := run r1.1 cs
    (r2.1, r1.2 ++ r2.2)

/-- Whether a member call of another fiber is a call of `push_all`. -/
def is_push_all : action T → Bool
  | action.push_all _ => true
  | _ => false

/-- Whether `push_all` is called: by the call itself, or by another fiber
during one of its waits. -/
def uses_push_all : call T → Bool
  | call.push_all _ => true
  | call.push _ ws => ws.any (fun w => w.any is_push_all)
  | call.pop _ ws => ws.any (fun w => w.any is_push_all)
  | call.try_push_for _ ws => ws.any (fun w => w.others.any is_push_all)
  | call.try_push_until _ ws => ws.any (fun w => w.others.any is_push_all)
  | call.try_pop_for _ ws => ws.any (fun w => w.others.any is_push_all)
  | call.try_pop_until _ ws => ws.any (fun w => w.others.any is_push_all)
  | _ => false

/-- The bound of the queue, with the capacity it is measured against: `q2` has
the capacity of `q1` and is within it if `q1` is. -/
def keeps_bound (q1 q2 : basic_concurrent_queue T) : Prop :=
  q2.capacity_ = q1.capacity_ ∧
    (q1.the_queue_.length ≤ q1.capacity_ → q2.the_queue_.length ≤ q2.capacity_)

/-- An open queue of capacity 1 with nothing in it. -/
def empty_example : basic_concurrent_queue Nat := ctor 1 true

/-- An open queue of capacity 1 that holds the element 1: it is full. -/
def full_example : basic_concurrent_queue Nat := (ctor 1 true).push_and_notify 1

/-- A queue of capacity 2 that holds 1 and 2 and has been closed. -/
def closed_example : basic_concurrent_queue Nat :=
  (((ctor 2 true).push_and_notify 1).push_and_notify 2).close

/-- Consecutive calls of `pop` by one fiber, each with the value its reference
argument holds beforehand and the wake-ups on offer; nothing else touches the
queue between two of them. -/
def pop_each : basic_concurrent_queue T → List (T × List (List (action T))) →
    List (pop_result T)
  | _, [] => []
  | q, p :: ps =>
    let r := q.pop p.1 p.2
    r :: pop_each r.q ps

end basic_concurrent_queue

/-! ## Task objects (`future/detail/task_object.hpp`)

A C++ expression that may raise is a value of `Except E`, with `E` the type of
what `std::current_exception()` captures.  A callable `Fn` is an object: a call
may change it, whether it returns or raises, so a call yields its outcome and
the callable afterwards. -/

/-- Modelled from the spec: `task_base` (`future/detail/task_base.hpp` is not
among the sources), the settle-once result slot a task object derives from: a
state tag {Pending, HasValue, HasException} with the stored value or the
captured failure.  A `void` task stores no value: its `R` is `Unit`. -/
inductive task_base (R E : Type) where
  | Pending
  | HasValue (v : R)
  | HasException (e : E)
deriving DecidableEq, Repr

/-- Modelled from the spec: `task_base::set_value`, the transition
Pending → HasValue; the state changes exactly once, so a settled task keeps
the outcome it has. -/
def task_base.set_value {R E : Type} (s : task_base R E) (v : R) : task_base R E :=
  match s with
  | task_base.Pending => task_base.HasValue v
  | settled => settled

/-- Modelled from the spec: `task_base::set_exception`, the transition
Pending → HasException; a settled task keeps the outcome it has. -/
def task_base.set_exception {R E : Type} (s : task_base R E) (e : E) : task_base R E :=
  match s with
  | task_base.Pending => task_base.HasException e
  | settled => settled

/-- A `task_object<Fn, Allocator, R, Args...>`: its `task_base` part and the
wrapped callable `fn_` (`alloc_` plays no part in `run`). -/
structure task_object (Fn R E : Type) where
  base : task_base R E
  fn_ : Fn
deriving DecidableEq, Repr

namespace task_object

variable {Fn R E Args X : Type}

/-- Constructor `task_object(fn, alloc)`: `task_base()` starts Pending. -/
def ctor (fn : Fn) : task_object Fn R E :=
  { base := task_base.Pending, fn_ := fn }

/-- Member `run(args...)` of the primary template:
`try { set_value(fn_(args...)); } catch(...) { set_exception(std::current_exception()); }`.
`invoke` is the call operator of `Fn`.  The result is `Except.ok` when `run`
returns and `Except.error` when it raises to its caller. -/
def run (invoke : Fn → Args → Except E R × Fn) (t : task_object Fn R E) (args : Args) :
    Except E (task_object Fn R E) :=
  match invoke t.fn_ args with
  | (Except.ok v, fn1) => Except.ok { base := t.base.set_value v, fn_ := fn1 }
  | (Except.error e, fn1) => Except.ok { base := t.base.set_exception e, fn_ := fn1 }

/-- Member `run(args...)` of the specialisation for `R = void`:
`try { fn_(args...); set_value(); } catch(...) { set_exception(std::current_exception()); }`.
Whatever `fn_` returns is dropped. -/
def run_void (invoke : Fn → Args → Except E X × Fn) (t : task_object Fn Unit E) (args : Args) :
    Except E (task_object Fn Unit E) :=
  match invoke t.fn_ args with
  | (Except.ok _, fn1) => Except.ok { base := t.base.set_value (), fn_ := fn1 }
  | (Except.error e, fn1) => Except.ok { base := t.base.set_exception e, fn_ := fn1 }

/-- A callable that counts its calls (the object is the count so far) and
returns its argument plus one. -/
def counting_callable (calls : Nat) (arg : Nat) : Except String Nat × Nat :=
  (Except.ok (arg + 1), calls + 1)

/-- A callable that counts its calls and raises its argument as a failure. -/
def raising_callable (calls : Nat) (arg : String) : Except String Nat × Nat :=
  (Except.error arg, calls + 1)

end task_object

/-! ## Fiber-specific storage (`tss.hpp`)

A pointer is a `Nat`, `0` being `NULL`; the key of a slot is the address of the
`thread_specific_ptr` that owns it. -/

/-- The cleanup function objects a `thread_specific_ptr` makes: `delete_data`
(the default, `delete`) and `run_custom_cleanup_function` around the function
pointer given to the constructor. -/
inductive tss_cleanup_function where
  | delete_data
  | run_custom_cleanup_function (cleanup_function : Nat)
deriving DecidableEq, Repr

/-- Modelled from the spec: a TSS slot, an opaque pointer plus an associated
cleanup function (an empty `shared_ptr` is `none`). -/
structure tss_data_node where
  func : Option tss_cleanup_function
  value : Nat
deriving DecidableEq, Repr

/-- Modelled from the spec: the storage of the current fiber, which
`detail::get_tss_data` and `detail::set_tss_data` (declared in `tss.hpp`,
defined outside the sources at hand) read and write: at most one live slot
per key, and the cleanup calls made so far, oldest first, each with the
function called and the pointer it was called on. -/
structure fiber_tss where
  slots : Nat → Option tss_data_node
  cleaned : List (tss_cleanup_function × Nat)

namespace detail

/-- Modelled from the spec: `get_tss_data(key)`, the stored pointer of the slot,
null if the slot is unset. -/
def get_tss_data (key : Nat) (t : fiber_tss) : Nat :=
  match t.slots key with
  | some node => node.value
  | none => 0

/-- The slots with `key` set to `node`, or cleared. -/
def store (slots : Nat → Option tss_data_node) (key : Nat) (node : Option tss_data_node) :
    Nat → Option tss_data_node :=
  fun k => if k = key then node else slots k

/-- Modelled from the spec: `set_tss_data(key, func, tss_data, cleanup_existing)`.
With `cleanup_existing`, a slot that holds a non-null value and has a cleanup
function gets that function called on the old value; then the slot holds
`tss_data` with `func`, and is cleared when both are null. -/
def set_tss_data (key : Nat) (func : Option tss_cleanup_function) (tss_data : Nat)
    (cleanup_existing : Bool) (t : fiber_tss) : fiber_tss :=
  let cleaned :=
    match t.slots key with
    | some ⟨some f, old⟩ =>
      if cleanup_existing && decide (old ≠ 0) then t.cleaned ++ [(f, old)] else t.cleaned
    | _ => t.cleaned
  let node : Option tss_data_node :=
    if func.isSome || decide (tss_data ≠ 0) then some ⟨func, tss_data⟩ else none
  { slots := store t.slots key node, cleaned := cleaned }

end detail

/-- A `thread_specific_ptr<T>`: its address, which is the key of its slot, and
its member `cleanup`. -/
structure thread_specific_ptr where
  key : Nat
  cleanup : Option tss_cleanup_function
deriving DecidableEq, Repr

namespace thread_specific_ptr

/-- Default constructor: the `delete`-based cleanup. -/
def ctor (key : Nat) : thread_specific_ptr :=
  { key := key, cleanup := some tss_cleanup_function.delete_data }

/-- Constructor `thread_specific_ptr(cleanup_function)`: `cleanup` is set only
for a non-null function pointer. -/
def ctor_custom (key : Nat) (cleanup_function : Nat) : thread_specific_ptr :=
  { key := key
    cleanup :=
      if cleanup_function ≠ 0 then
        some (tss_cleanup_function.run_custom_cleanup_function cleanup_function)
      else
        none }

/-- Member `get()`. -/
def get (p : thread_specific_ptr) (t : fiber_tss) : Nat :=
  detail.get_tss_data p.key t

/-- Member `release()`: the returned pointer and the storage afterwards. -/
def release (p : thread_specific_ptr) (t : fiber_tss) : Nat × fiber_tss :=
  let temp := p.get t
  (temp, detail.set_tss_data p.key none 0 false t)

/-- Member `reset(new_value)`. -/
def reset (p : thread_specific_ptr) (new_value : Nat) (t : fiber_tss) : fiber_tss :=
  let current_value := p.get t
  if current_value ≠ new_value then
    detail.set_tss_data p.key p.cleanup new_value true t
  else
    t

end thread_specific_ptr

end boost.green_thread

/-! ## Iteration (`concurrent_queue.hpp`)

The member template `pop_some` is not embedded: its body calls
`the_queue_.top()`, which `std::queue` does not have, and its first return
statement is `return false;` in a function that returns `OutIterator`, so the
template cannot be instantiated and no call of it runs. -/

namespace boost.green_thread

namespace basic_concurrent_queue

variable {T : Type}

/-- A queue of capacity 1 that `push_all` has filled with 1 and 2. -/
def overfull_example : basic_concurrent_queue Nat := ((ctor 1 true).push_all [1, 2]).2

end basic_concurrent_queue

/-- The data members of `basic_concurrent_queue::iterator`.  There is one queue
an iterator can point to, so `queue_` says whether the pointer is set
(`false` is the null pointer). -/
structure iterator (T : Type) where
  queue_ : Bool
  value_ : T
  popped_ : Bool
deriving DecidableEq, Repr

namespace iterator

variable {T : Type}

/-- Constructor `iterator()`; `init` is a value-initialised `value_type`. -/
def ctor (init : T) : iterator T :=
  { queue_ := false, value_ := init, popped_ := false }

/-- Member `ended()`: `!queue_`. -/
def ended (it : iterator T) : Bool := !it.queue_

/-- Operator `!=`: `!(ended() && other.ended())`. -/
def ne (it other : iterator T) : Bool := !(it.ended && other.ended)

/-- Operator `++` on an iterator whose `queue_` is set:
`popped_=queue_->pop(value_); if(!popped_) queue_=0;`.  The result is the
iterator and what `pop` returned; while `pop` is suspended the operator has
not returned and the iterator is as it was. -/
def incr (it : iterator T) (q : basic_concurrent_queue T) (ws : List (List (action T))) :
    iterator T × pop_result T :=
  let r := q.pop it.value_ ws
  match r.ret with
  | some popped =>
    ({ queue_ := if !popped then false else it.queue_
       value_ := r.popped_value
       popped_ := popped }, r)
  | none => (it, r)

end iterator

/-- Member `end()`: `iterator()`. -/
def basic_concurrent_queue.end {T : Type} (_q : basic_concurrent_queue T) (init : T) :
    iterator T :=
  iterator.ctor init

namespace basic_concurrent_queue

variable {T : Type}

/-- Constructor `iterator(queue)`, which is what `begin()` returns: `queue_` is
set, `popped_` is false, and `operator++()` is called. -/
def begin (q : basic_concurrent_queue T) (init : T) (ws : List (List (action T))) :
    iterator T × pop_result T :=
  iterator.incr { queue_ := true, value_ := init, popped_ := false } q ws

/-- The loop `for( ; it!=end(); ++it) visit(*it);`: the values visited, the
iterator and the queue when the loop is left.  Each `++it` takes its wake-ups
from `supply`; the result is `none` when the loop has not been left: a `pop`
is suspended, or `supply` holds no wake-ups for the next `++it`. -/
def range_loop (init : T) :
    iterator T → basic_concurrent_queue T → List (List (List (action T))) →
      Option (List T × iterator T × basic_concurrent_queue T)
  | it, q, [] => if it.ne (q.end init) then none else some ([], it, q)
  | it, q, ws :: supply =>
    if it.ne (q.end init) then
      let r := it.incr q ws
      if r.2.ret = none then
        none
      else
        match range_loop init r.1 r.2.q supply with
        | some (visited, it1, q1) => some (it.value_ :: visited, it1, q1)
        | none => none
    else
      some ([], it, q)

/-- The range-based loop `for(auto it=begin(); it!=end(); ++it) visit(*it);`;
the first entry of `supply` is for the `pop` in `begin()`. -/
def range_for (q : basic_concurrent_queue T) (init : T) :
    List (List (List (action T))) →
      Option (List T × iterator T × basic_concurrent_queue T)
  | [] => none
  | ws :: supply =>
    let r := q.begin init ws
    if r.2.ret = none then none else range_loop init r.1 r.2.q supply

end basic_concurrent_queue

end boost.green_thread

/-! ## Condition variables (`condition_variable.hpp`)

A predicate `pred()` reads state that the lock protects; `σ` is the type of
that state and `pred : σ → Bool`.  A wait releases the lock, so the state
the caller finds when the wait returns is the one the other fibers left: it
comes with the wake-up.  A wake-up that leaves the state as it was is a
spurious one. -/

namespace boost.green_thread

/-- Modelled from the spec: one return of a timed wait of `condition_variable`
(`wait_rel`, declared in `condition_variable.hpp` and defined outside the
sources at hand): the protected state the caller finds once the lock is
re-acquired, and the status reported, notified or timed out. -/
structure cv_wakeup (σ : Type) where
  seen : σ
  status : cv_status
deriving DecidableEq, Repr

/-- Where `wait(lock, pred)` stands: the protected state at the last
evaluation of the predicate, how many waits have returned, and whether the
caller is suspended in a wait that has not returned. -/
structure pred_waited (σ : Type) where
  s : σ
  waits : Nat
  suspended : Bool
deriving DecidableEq, Repr

/-- Where a timed `wait_for(lock, rel_time, pred)` stands: the returned flag
(`none` while the caller is suspended in a wait), the protected state at the
last evaluation of the predicate, and how many waits have returned. -/
structure timed_pred_waited (σ : Type) where
  ret : Option Bool
  s : σ
  waits : Nat
deriving DecidableEq, Repr

namespace condition_variable

variable {σ : Type}

/-- Modelled from the spec: `wait_rel(lock, d)`: the status of the wake-up and
the protected state found. -/
def wait_rel (w : cv_wakeup σ) : cv_status × σ := (w.status, w.seen)

/-- Member `wait_for(lock, timeout_duration)`: `return wait_rel(lock, ...)`. -/
def wait_for (w : cv_wakeup σ) : cv_status × σ := wait_rel w

/-- Member `wait_until(lock, timeout_time)`:
`return wait_for(lock, timeout_time-Clock::now())`. -/
def wait_until (w : cv_wakeup σ) : cv_status × σ := wait_for w

/-- Member `wait(lock, pred)`: `while (!pred()) { wait(lock); }`, one wake-up
per `wait(lock)`, each giving the state found when that wait returns. -/
def wait_pred (pred : σ → Bool) : σ → List σ → pred_waited σ
  | s, [] => ⟨s, 0, !pred s⟩
  | s, s1 :: rest =>
    if !pred s then
      let r := wait_pred pred s1 rest
      ⟨r.s, r.waits + 1, r.suspended⟩
    else
      ⟨s, 0, false⟩

/-- Member `wait_for(lock, rel_time, pred)`:
`while (!pred()) { if (cv_status::timeout == wait_for(lock, rel_time)) return pred(); } return true;`. -/
def wait_for_pred (pred : σ → Bool) : σ → List (cv_wakeup σ) → timed_pred_waited σ
  | s, [] => if !pred s then ⟨none, s, 0⟩ else ⟨some true, s, 0⟩
  | s, w :: rest =>
    if !pred s then
      if cv_status.timeout = (wait_for w).1 then
        ⟨some (pred (wait_for w).2), (wait_for w).2, 1⟩
      else
        let r := wait_for_pred pred (wait_for w).2 rest
        ⟨r.ret, r.s, r.waits + 1⟩
    else
      ⟨some true, s, 0⟩

/-- Member `wait_until(lock, timeout_time, pred)`:
`while (!pred()) { if (cv_status::timeout == wait_until(lock, timeout_time)) return pred(); } return true;`. -/
def wait_until_pred (pred : σ → Bool) : σ → List (cv_wakeup σ) → timed_pred_waited σ
  | s, [] => if !pred s then ⟨none, s, 0⟩ else ⟨some true, s, 0⟩
  | s, w :: rest =>
    if !pred s then
      if cv_status.timeout = (wait_until w).1 then
        ⟨some (pred (wait_until w).2), (wait_until w).2, 1⟩
      else
        let r := wait_until_pred pred (wait_until w).2 rest
        ⟨r.ret, r.s, r.waits + 1⟩
    else
      ⟨some true, s, 0⟩

end condition_variable

/-! ### `condition_variable_any`

`condition_variable_any::wait(m)` works on two locks: the user's lock `m` and
the internal mutex `mtx_`.  What is followed is whether each is locked by the
caller, and the order of the lock and unlock calls. -/

/-- A call on one of the two locks, or the suspension of the caller inside the
inner wait. -/
inductive lock_event where
  | m_unlock
  | m_lock
  | mtx_lock
  | mtx_unlock
  | suspended
deriving DecidableEq, Repr

/-- The two locks as the caller holds them, and the calls made so far, oldest
first. -/
structure any_locks where
  m_locked : Bool
  mtx_locked : Bool
  log : List lock_event
deriving DecidableEq, Repr

/-- What can happen in one call of `condition_variable_any::wait(m)`:
`lk_ctor` is the failure raised by `boost::unique_lock<mutex> lk(mtx_)`, if it
raises; `m_unlock` the failure raised by `m_.unlock()`, if it raises; `inner`
how the inner wait on `cond_` ends, by a status or by a failure; `inner_owns`
whether `lk` owns `mtx_` when the inner wait ends by a failure. -/
structure any_env (E : Type) where
  lk_ctor : Option E
  m_unlock : Option E
  inner : Except E cv_status
  inner_owns : Bool

/-- Modelled from the spec: the constructor of `boost::unique_lock<mutex>` on
`mtx_` (`mutex.hpp` is not among the sources): `lock()` acquires the mutex. -/
def unique_lock_ctor (l : any_locks) : any_locks :=
  { l with mtx_locked := true, log := l.log ++ [lock_event.mtx_lock] }

/-- Modelled from the spec: the destructor of `boost::unique_lock<mutex>`:
`unlock()` if the lock owns the mutex. -/
def unique_lock_dtor (owns : Bool) (l : any_locks) : any_locks :=
  if owns then
    { l with mtx_locked := false, log := l.log ++ [lock_event.mtx_unlock] }
  else
    l

/-- Modelled from the spec: the inner wait `cond_.wait(lk)`, `cond_.wait_for(lk, d)`
or `cond_.wait_until(lk, t)`: it releases the lock and suspends the caller;
on resume it re-acquires the lock before returning.  The result is how the
wait ends, whether `lk` owns `mtx_` then, and the locks. -/
def cond_wait {E : Type} (env : any_env E) (l : any_locks) :
    Except E cv_status × Bool × any_locks :=
  let l1 : any_locks :=
    { l with
      mtx_locked := false
      log := l.log ++ [lock_event.mtx_unlock, lock_event.suspended] }
  let l2 : any_locks := { l1 with mtx_locked := true, log := l1.log ++ [lock_event.mtx_lock] }
  match env.inner with
  | Except.ok st => (Except.ok st, true, l2)
  | Except.error e => if env.inner_owns then (Except.error e, true, l2) else (Except.error e, false, l1)

namespace detail

/-- The struct `lock_on_exit<MutexType>`: `m` says whether the pointer is set. -/
structure lock_on_exit where
  m : Bool
deriving DecidableEq, Repr

/-- Constructor `lock_on_exit()`: `m(0)`. -/
def lock_on_exit.ctor : lock_on_exit := ⟨false⟩

/-- Member `activate(m_)`: `m_.unlock(); m=&m_;`.  When `m_.unlock()` raises
(`raised`), the lock stays locked and the pointer is not set. -/
def lock_on_exit.activate {E : Type} (g : lock_on_exit) (raised : Option E) (l : any_locks) :
    Except E Unit × lock_on_exit × any_locks :=
  match raised with
  | some e => (Except.error e, g, l)
  | none =>
    (Except.ok (), { m := true },
      { l with m_locked := false, log := l.log ++ [lock_event.m_unlock] })

/-- Destructor `~lock_on_exit()`: `if(m) { m->lock(); }`. -/
def lock_on_exit.dtor (g : lock_on_exit) (l : any_locks) : any_locks :=
  if g.m then
    { l with m_locked := true, log := l.log ++ [lock_event.m_lock] }
  else
    l

end detail

/-- Where `condition_variable_any::wait(m, pred)` stands: how the call ended
(`none` while the caller is suspended in a wait, `Except.ok` for a return,
`Except.error` when a `wait(m)` raised), the protected state and the locks at
the last evaluation of the predicate, and how many calls of `wait(m)`
returned. -/
structure any_pred_waited (σ E : Type) where
  ret : Option (Except E Unit)
  s : σ
  l : any_locks
  waits : Nat

/-- One call of `wait(m)` inside `wait(m, pred)`: what happens in it, and the
protected state the caller finds when it returns. -/
structure any_wakeup (σ E : Type) where
  env : any_env E
  seen : σ

namespace condition_variable_any

variable {σ E : Type}

/-- The scope `{ lock_on_exit guard; unique_lock<mutex> lk(mtx_); guard.activate(m);
<inner wait> }` that the three waits share, written once; objects are
destroyed in the reverse order of their construction, `lk` before `guard`,
on return and on a failure alike. -/
def guarded_wait (env : any_env E) (l : any_locks) : Except E cv_status × any_locks :=
  let guard := detail.lock_on_exit.ctor
  match env.lk_ctor with
  | some e => (Except.error e, guard.dtor l)
  | none =>
    let l1 := unique_lock_ctor l
    match guard.activate env.m_unlock l1 with
    | (Except.error e, guard1, l2) => (Except.error e, guard1.dtor (unique_lock_dtor true l2))
    | (Except.ok _, guard1, l2) =>
      let r := cond_wait env l2
      (r.1, guard1.dtor (unique_lock_dtor r.2.1 r.2.2))

/-- Member `wait(m)`: `lock_on_exit guard; unique_lock<mutex> lk(mtx_);
guard.activate(m); cond_.wait(lk);`. -/
def wait (env : any_env E) (l : any_locks) : Except E Unit × any_locks :=
  let r := guarded_wait env l
  (r.1.map (fun _ => ()), r.2)

/-- Member `wait_for(lock, d)`: as `wait`, ending in
`return cond_.wait_for(lk, d);`. -/
def wait_for (env : any_env E) (l : any_locks) : Except E cv_status × any_locks :=
  guarded_wait env l

/-- Member `wait_until(lock, t)`: as `wait`, ending in
`return cond_.wait_until(lk, t);`. -/
def wait_until (env : any_env E) (l : any_locks) : Except E cv_status × any_locks :=
  guarded_wait env l

/-- Member `wait(m, pred)`: `while(!pred()) wait(m);`.  A failure raised by
`wait(m)` leaves the loop and the call. -/
def wait_pred (pred : σ → Bool) : σ → any_locks → List (any_wakeup σ E) → any_pred_waited σ E
  | s, l, [] => if !pred s then ⟨none, s, l, 0⟩ else ⟨some (Except.ok ()), s, l, 0⟩
  | s, l, w :: rest =>
    if !pred s then
      match wait w.env l with
      | (Except.error e, l1) => ⟨some (Except.error e), s, l1, 0⟩
      | (Except.ok _, l1) =>
        let r := wait_pred pred w.seen l1 rest
        ⟨r.ret, r.s, r.l, r.waits + 1⟩
    else
      ⟨some (Except.ok ()), s, l, 0⟩

/-- The caller holds the user's lock and nothing has been logged. -/
def held_example : any_locks := ⟨true, false, []⟩

/-- A wait that is notified, and waits that fail at each of the three places. -/
def notified_example : any_env String := ⟨none, none, Except.ok cv_status.no_timeout, true⟩

/-- The constructor of `lk` raises. -/
def lk_fails_example : any_env String := ⟨some "lk", none, Except.ok cv_status.no_timeout, true⟩

/-- The unlock of the user's lock raises. -/
def unlock_fails_example : any_env String :=
  ⟨none, some "unlock", Except.ok cv_status.no_timeout, true⟩

/-- The inner wait raises. -/
def inner_fails_example : any_env String := ⟨none, none, Except.error "inner", true⟩

end condition_variable_any

end boost.green_thread

/-! # Properties -/

namespace boost.green_thread

section queue_lemmas

variable {T : Type}

theorem accepted_values_append (es fs : List (event T)) :
    event.accepted_values (es ++ fs) = event.accepted_values es ++ event.accepted_values fs := by
  induction es with
  | nil => rfl
  | cons e es ih => cases e <;> simp [event.accepted_values, ih]

theorem delivered_values_append (es fs : List (event T)) :
    event.delivered_values (es ++ fs) =
      event.delivered_values es ++ event.delivered_values fs := by
  induction es with
  | nil => rfl
  | cons e es ih => cases e <;> simp [event.delivered_values, ih]

theorem accepted_values_map_accepted (xs : List T) :
    event.accepted_values (xs.map event.accepted) = xs := by
  induction xs with
  | nil => rfl
  | cons x xs ih => simp [event.accepted_values, ih]

theorem delivered_values_map_accepted (xs : List T) :
    event.delivered_values (xs.map event.accepted) = [] := by
  induction xs with
  | nil => rfl
  | cons x xs ih => simp [event.delivered_values, ih]

/-- The contents after the loop of `push_all`: everything was appended. -/
theorem push_all_loop_contents (q : basic_concurrent_queue T) (xs : List T) :
    (q.push_all_loop xs).the_queue_ = q.the_queue_ ++ xs := by
  induction xs generalizing q with
  | nil => simp [basic_concurrent_queue.push_all_loop]
  | cons x xs ih =>
    simp [basic_concurrent_queue.push_all_loop, ih, basic_concurrent_queue.push_and_notify]

/-- The loop of `push_some` hands back at most what it was given. -/
theorem push_some_loop_rest_length (q : basic_concurrent_queue T) (xs : List T) :
    (q.push_some_loop xs).1.length ≤ xs.length := by
  induction xs generalizing q with
  | nil => simp [basic_concurrent_queue.push_some_loop]
  | cons x xs ih =>
    unfold basic_concurrent_queue.push_some_loop
    split
    · exact Nat.le_succ_of_le (ih _)
    · exact Nat.le_refl _

/-- The contents after the loop of `push_some`: the part of the range that was
not handed back was appended. -/
theorem push_some_loop_contents (q : basic_concurrent_queue T) (xs : List T) :
    (q.push_some_loop xs).2.the_queue_ =
      q.the_queue_ ++ xs.take (xs.length - (q.push_some_loop xs).1.length) := by
  induction xs generalizing q with
  | nil => simp [basic_concurrent_queue.push_some_loop]
  | cons x xs ih =>
    unfold basic_concurrent_queue.push_some_loop
    split
    · have hle := push_some_loop_rest_length (q.push_and_notify x) xs
      rw [ih]
      have e : (x :: xs).length - ((q.push_and_notify x).push_some_loop xs).1.length =
          (xs.length - ((q.push_and_notify x).push_some_loop xs).1.length) + 1 := by
        simp only [List.length_cons]; omega
      rw [e]
      simp [basic_concurrent_queue.push_and_notify]
    · simp

/-- Every member call of another fiber keeps the contents in line with what it
reports: what was handed out followed by what is queued is what was queued
followed by what was taken in. -/
theorem act_fifo (q : basic_concurrent_queue T) (a : action T) :
    event.delivered_values (q.act a).2 ++ (q.act a).1.the_queue_ =
      q.the_queue_ ++ event.accepted_values (q.act a).2 := by
  cases a with
  | «open» =>
    simp [basic_concurrent_queue.act, basic_concurrent_queue.open, event.delivered_values,
      event.accepted_values]
  | close =>
    simp [basic_concurrent_queue.act, basic_concurrent_queue.close, event.delivered_values,
      event.accepted_values]
  | try_push data =>
    simp only [basic_concurrent_queue.act, basic_concurrent_queue.try_push]
    split
    · simp [event.delivered_values, event.accepted_values]
    · split <;>
        simp [event.delivered_values, event.accepted_values,
          basic_concurrent_queue.push_and_notify]
  | push_some xs =>
    simp only [basic_concurrent_queue.act, basic_concurrent_queue.push_some]
    split
    · simp [event.delivered_values, event.accepted_values]
    · simp only [delivered_values_map_accepted, accepted_values_map_accepted,
        push_some_loop_contents, List.nil_append]
  | push_all xs =>
    simp only [basic_concurrent_queue.act, basic_concurrent_queue.push_all]
    split
    · simp [event.delivered_values, event.accepted_values]
    · simp [delivered_values_map_accepted, accepted_values_map_accepted,
        push_all_loop_contents]
  | try_pop popped_value =>
    cases h : q.the_queue_ <;>
      simp [basic_concurrent_queue.act, basic_concurrent_queue.try_pop, h,
        event.delivered_values, event.accepted_values, basic_concurrent_queue.pop_and_notify]

theorem interfere_fifo (q : basic_concurrent_queue T) (as : List (action T)) :
    event.delivered_values (q.interfere as).2 ++ (q.interfere as).1.the_queue_ =
      q.the_queue_ ++ event.accepted_values (q.interfere as).2 := by
  induction as generalizing q with
  | nil => simp [basic_concurrent_queue.interfere, event.delivered_values, event.accepted_values]
  | cons a as ih =>
    simp only [basic_concurrent_queue.interfere, delivered_values_append,
      accepted_values_append, List.append_assoc]
    rw [ih, ← List.append_assoc, act_fifo, List.append_assoc]

theorem wait_loop_fifo (cond : basic_concurrent_queue T → Bool) (q : basic_concurrent_queue T)
    (ws : List (List (action T))) :
    event.delivered_values (basic_concurrent_queue.wait_loop cond q ws).others ++
        (basic_concurrent_queue.wait_loop cond q ws).q.the_queue_ =
      q.the_queue_ ++ event.accepted_values (basic_concurrent_queue.wait_loop cond q ws).others := by
  induction ws generalizing q with
  | nil => simp [basic_concurrent_queue.wait_loop, event.delivered_values, event.accepted_values]
  | cons w ws ih =>
    unfold basic_concurrent_queue.wait_loop
    split
    · simp only [delivered_values_append, accepted_values_append, List.append_assoc]
      rw [ih, ← List.append_assoc, interfere_fifo, List.append_assoc]
    · simp [event.delivered_values, event.accepted_values]

theorem timed_wait_loop_fifo (cond : basic_concurrent_queue T → Bool) (ret : cv_status)
    (q : basic_concurrent_queue T) (ws : List (wakeup T)) :
    event.delivered_values (basic_concurrent_queue.timed_wait_loop cond ret q ws).2.others ++
        (basic_concurrent_queue.timed_wait_loop cond ret q ws).2.q.the_queue_ =
      q.the_queue_ ++
        event.accepted_values (basic_concurrent_queue.timed_wait_loop cond ret q ws).2.others := by
  induction ws generalizing q ret with
  | nil =>
    simp [basic_concurrent_queue.timed_wait_loop, event.delivered_values, event.accepted_values]
  | cons w ws ih =>
    unfold basic_concurrent_queue.timed_wait_loop
    split
    · simp only [delivered_values_append, accepted_values_append, List.append_assoc]
      rw [ih, ← List.append_assoc, interfere_fifo, List.append_assoc]
    · simp [event.delivered_values, event.accepted_values]

/-- How a push result that comes after a wait loop keeps the contents in line
with the events. -/
theorem push_fifo_of_waited (q : basic_concurrent_queue T) (data : T) (w : waited T)
    (hw : event.delivered_values w.others ++ w.q.the_queue_ =
      q.the_queue_ ++ event.accepted_values w.others) :
    event.delivered_values w.others ++ (w.q.push_and_notify data).the_queue_ =
      q.the_queue_ ++ (event.accepted_values w.others ++ [data]) := by
  simp only [basic_concurrent_queue.push_and_notify]
  rw [← List.append_assoc, hw, List.append_assoc]

theorem push_fifo (q : basic_concurrent_queue T) (data : T) (ws : List (List (action T))) :
    event.delivered_values ((q.push data ws).events data) ++ (q.push data ws).q.the_queue_ =
      q.the_queue_ ++ event.accepted_values ((q.push data ws).events data) := by
  have hw := wait_loop_fifo basic_concurrent_queue.full_and_opened q ws
  have hp := push_fifo_of_waited q data _ hw
  unfold basic_concurrent_queue.push push_result.events
  split
  · simp [event.delivered_values, event.accepted_values]
  · simp only []
    split
    · simpa [delivered_values_append, accepted_values_append, event.delivered_values,
        event.accepted_values] using hw
    · split
      · simpa [delivered_values_append, accepted_values_append, event.delivered_values,
          event.accepted_values] using hw
      · simpa [delivered_values_append, accepted_values_append, event.delivered_values,
          event.accepted_values] using hp

theorem try_push_for_fifo (q : basic_concurrent_queue T) (data : T) (ws : List (wakeup T)) :
    event.delivered_values ((q.try_push_for data ws).events data) ++
        (q.try_push_for data ws).q.the_queue_ =
      q.the_queue_ ++ event.accepted_values ((q.try_push_for data ws).events data) := by
  have hw := timed_wait_loop_fifo basic_concurrent_queue.full_and_opened
    cv_status.no_timeout q ws
  have hp := push_fifo_of_waited q data _ hw
  unfold basic_concurrent_queue.try_push_for push_result.events
  split
  · simp [event.delivered_values, event.accepted_values]
  · simp only []
    split
    · simpa [delivered_values_append, accepted_values_append, event.delivered_values,
        event.accepted_values] using hw
    · split
      · simpa [delivered_values_append, accepted_values_append, event.delivered_values,
          event.accepted_values] using hw
      · split
        · simpa [delivered_values_append, accepted_values_append, event.delivered_values,
            event.accepted_values] using hp
        · simpa [delivered_values_append, accepted_values_append, event.delivered_values,
            event.accepted_values] using hw

theorem try_push_until_eq_try_push_for (q : basic_concurrent_queue T) (data : T)
    (ws : List (wakeup T)) : q.try_push_until data ws = q.try_push_for data ws := rfl

theorem try_pop_until_eq_try_pop_for (q : basic_concurrent_queue T) (popped_value : T)
    (ws : List (wakeup T)) : q.try_pop_until popped_value ws = q.try_pop_for popped_value ws :=
  rfl

theorem pop_fifo (q : basic_concurrent_queue T) (popped_value : T)
    (ws : List (List (action T))) :
    event.delivered_values (q.pop popped_value ws).events ++ (q.pop popped_value ws).q.the_queue_ =
      q.the_queue_ ++ event.accepted_values (q.pop popped_value ws).events := by
  have hw := wait_loop_fifo basic_concurrent_queue.empty_and_opened q ws
  unfold basic_concurrent_queue.pop pop_result.events
  simp only []
  split
  · simpa [delivered_values_append, accepted_values_append, event.delivered_values,
      event.accepted_values] using hw
  · split
    · rename_i h
      simpa [delivered_values_append, accepted_values_append, event.delivered_values,
        event.accepted_values, h] using hw
    · rename_i front rest h
      simpa [delivered_values_append, accepted_values_append, event.delivered_values,
        event.accepted_values, h, basic_concurrent_queue.pop_and_notify] using hw

theorem try_pop_for_fifo (q : basic_concurrent_queue T) (popped_value : T)
    (ws : List (wakeup T)) :
    event.delivered_values (q.try_pop_for popped_value ws).events ++
        (q.try_pop_for popped_value ws).q.the_queue_ =
      q.the_queue_ ++ event.accepted_values (q.try_pop_for popped_value ws).events := by
  have hw := timed_wait_loop_fifo basic_concurrent_queue.empty_and_opened
    cv_status.no_timeout q ws
  unfold basic_concurrent_queue.try_pop_for pop_result.events
  simp only []
  split
  · simpa [delivered_values_append, accepted_values_append, event.delivered_values,
      event.accepted_values] using hw
  · split
    · rename_i h
      simpa [delivered_values_append, accepted_values_append, event.delivered_values,
        event.accepted_values, h] using hw
    · rename_i front rest h
      split
      · simpa [delivered_values_append, accepted_values_append, event.delivered_values,
          event.accepted_values, h, basic_concurrent_queue.pop_and_notify] using hw
      · simpa [delivered_values_append, accepted_values_append, event.delivered_values,
          event.accepted_values, h] using hw

theorem exec_fifo (q : basic_concurrent_queue T) (c : call T) :
    event.delivered_values (q.exec c).2 ++ (q.exec c).1.the_queue_ =
      q.the_queue_ ++ event.accepted_values (q.exec c).2 := by
  cases c with
  | «open» => exact act_fifo q _
  | close => exact act_fifo q _
  | push data ws => exact push_fifo q data ws
  | push_some xs => exact act_fifo q _
  | push_all xs => exact act_fifo q _
  | try_push data => exact act_fifo q _
  | try_push_for data ws => exact try_push_for_fifo q data ws
  | try_push_until data ws => exact try_push_for_fifo q data ws
  | pop popped_value ws => exact pop_fifo q popped_value ws
  | try_pop popped_value => exact act_fifo q _
  | try_pop_for popped_value ws => exact try_pop_for_fifo q popped_value ws
  | try_pop_until popped_value ws => exact try_pop_for_fifo q popped_value ws

theorem run_fifo (q : basic_concurrent_queue T) (cs : List (call T)) :
    event.delivered_values (q.run cs).2 ++ (q.run cs).1.the_queue_ =
      q.the_queue_ ++ event.accepted_values (q.run cs).2 := by
  induction cs generalizing q with
  | nil => simp [basic_concurrent_queue.run, event.delivered_values, event.accepted_values]
  | cons c cs ih =>
    simp only [basic_concurrent_queue.run, delivered_values_append, accepted_values_append,
      List.append_assoc]
    rw [ih, ← List.append_assoc, exec_fifo, List.append_assoc]

/-! ## The loops -/

/-- A wait loop whose condition does not hold returns at once, whatever
wake-ups are on offer. -/
theorem wait_loop_of_not_cond (cond : basic_concurrent_queue T → Bool)
    (q : basic_concurrent_queue T) (ws : List (List (action T))) (h : cond q = false) :
    basic_concurrent_queue.wait_loop cond q ws = ⟨q, 0, false, []⟩ := by
  cases ws with
  | nil => simp [basic_concurrent_queue.wait_loop, h]
  | cons w ws => simp [basic_concurrent_queue.wait_loop, h]

/-- A wait loop is left suspended exactly when its condition holds of the queue
it stopped at. -/
theorem wait_loop_suspended (cond : basic_concurrent_queue T → Bool)
    (q : basic_concurrent_queue T) (ws : List (List (action T))) :
    (basic_concurrent_queue.wait_loop cond q ws).suspended =
      cond (basic_concurrent_queue.wait_loop cond q ws).q := by
  induction ws generalizing q with
  | nil => simp [basic_concurrent_queue.wait_loop]
  | cons w ws ih =>
    unfold basic_concurrent_queue.wait_loop
    split
    · exact ih _
    · rename_i h
      simpa using h

theorem timed_wait_loop_suspended (cond : basic_concurrent_queue T → Bool) (ret : cv_status)
    (q : basic_concurrent_queue T) (ws : List (wakeup T)) :
    (basic_concurrent_queue.timed_wait_loop cond ret q ws).2.suspended =
      cond (basic_concurrent_queue.timed_wait_loop cond ret q ws).2.q := by
  induction ws generalizing q ret with
  | nil => simp [basic_concurrent_queue.timed_wait_loop]
  | cons w ws ih =>
    unfold basic_concurrent_queue.timed_wait_loop
    split
    · exact ih _ _
    · rename_i h
      simpa using h

theorem interfere_append (q : basic_concurrent_queue T) (as bs : List (action T)) :
    (q.interfere (as ++ bs)).1 = ((q.interfere as).1.interfere bs).1 := by
  induction as generalizing q with
  | nil => simp [basic_concurrent_queue.interfere]
  | cons a as ih => simp [basic_concurrent_queue.interfere, ih]

/-- The queue a wait loop stops at is the queue the other fibers left: the
member calls of the wake-ups that were used, applied in order to the queue
the loop started with. -/
theorem wait_loop_queue (cond : basic_concurrent_queue T → Bool)
    (q : basic_concurrent_queue T) (ws : List (List (action T))) :
    (basic_concurrent_queue.wait_loop cond q ws).q =
      (q.interfere (ws.take (basic_concurrent_queue.wait_loop cond q ws).waits).flatten).1 := by
  induction ws generalizing q with
  | nil => simp [basic_concurrent_queue.wait_loop, basic_concurrent_queue.interfere]
  | cons w ws ih =>
    unfold basic_concurrent_queue.wait_loop
    split
    · simp only [List.take_succ_cons, List.flatten_cons, interfere_append]
      exact ih _
    · simp [basic_concurrent_queue.interfere]

/-- Timed waits that all time out while nobody touches the queue leave a loop
whose condition holds suspended in yet another wait. -/
theorem timed_wait_loop_timeouts (cond : basic_concurrent_queue T → Bool) (ret : cv_status)
    (q : basic_concurrent_queue T) (n : Nat) (h : cond q = true) :
    (basic_concurrent_queue.timed_wait_loop cond ret q
      (List.replicate n ⟨[], cv_status.timeout⟩)).2 = ⟨q, n, true, []⟩ := by
  induction n generalizing ret with
  | zero => simp [basic_concurrent_queue.timed_wait_loop, h]
  | succ n ih =>
    simp only [List.replicate_succ, basic_concurrent_queue.timed_wait_loop, h, if_true,
      basic_concurrent_queue.interfere, ih, List.nil_append]

/-! ## The bound -/

/-- Claim C1, at the input where the code breaks it: on a fresh open queue of
capacity 1, `push_all` of the two-element range `[1, 2]` returns true and
leaves `size() = 2` with `capacity() = 1`, so `size() ≤ capacity()` does not
hold of a queue reached by one public member call. -/
theorem push_all_exceeds_capacity :
    ((basic_concurrent_queue.ctor 1 true : basic_concurrent_queue Nat).push_all [1, 2]).1 = true ∧
    ((basic_concurrent_queue.ctor 1 true : basic_concurrent_queue Nat).run
      [call.push_all [1, 2]]).1.size = 2 ∧
    ((basic_concurrent_queue.ctor 1 true : basic_concurrent_queue Nat).run
      [call.push_all [1, 2]]).1.capacity = 1 ∧
    ¬ ((basic_concurrent_queue.ctor 1 true : basic_concurrent_queue Nat).run
        [call.push_all [1, 2]]).1.size ≤
      ((basic_concurrent_queue.ctor 1 true : basic_concurrent_queue Nat).run
        [call.push_all [1, 2]]).1.capacity := by
  decide

/-! ## FIFO order -/

/-- Claim C2: for every queue that starts empty and every sequence of member
calls (`push` and `pop` with any wake-ups among them, and the calls other
fibers make during their waits), the values delivered by the successful pops
followed by the values still queued are the values accepted by the
successful pushes, so the delivered values are a prefix of the accepted ones,
in the same order. -/
theorem fifo_order (q : basic_concurrent_queue T) (h : q.the_queue_ = [])
    (cs : List (call T)) :
    event.delivered_values (q.run cs).2 ++ (q.run cs).1.the_queue_ =
        event.accepted_values (q.run cs).2 ∧
      event.delivered_values (q.run cs).2 <+: event.accepted_values (q.run cs).2 := by
  have hf := run_fifo q cs
  rw [h, List.nil_append] at hf
  exact ⟨hf, ⟨_, hf⟩⟩

/-- The scenario of claim C2: capacity 2, push 1, push 2, pop gives 1, push 3,
then draining gives 2, 3. -/
theorem fifo_order_witness :
    (basic_concurrent_queue.ctor 2 true : basic_concurrent_queue Nat).the_queue_ = [] ∧
    (event.delivered_values ((basic_concurrent_queue.ctor 2 true).run
          [call.push 1 [], call.push 2 [], call.pop 0 [], call.push 3 [], call.pop 0 [],
            call.pop 0 []]).2 ++
        ((basic_concurrent_queue.ctor 2 true).run
          [call.push 1 [], call.push 2 [], call.pop 0 [], call.push 3 [], call.pop 0 [],
            call.pop 0 []]).1.the_queue_ =
        event.accepted_values ((basic_concurrent_queue.ctor 2 true).run
          [call.push 1 [], call.push 2 [], call.pop 0 [], call.push 3 [], call.pop 0 [],
            call.pop 0 []]).2 ∧
      event.delivered_values ((basic_concurrent_queue.ctor 2 true).run
          [call.push 1 [], call.push 2 [], call.pop 0 [], call.push 3 [], call.pop 0 [],
            call.pop 0 []]).2 <+:
        event.accepted_values ((basic_concurrent_queue.ctor 2 true).run
          [call.push 1 [], call.push 2 [], call.pop 0 [], call.push 3 [], call.pop 0 [],
            call.pop 0 []]).2) ∧
    event.delivered_values ((basic_concurrent_queue.ctor 2 true).run
        [call.push 1 [], call.push 2 [], call.pop 0 [], call.push 3 [], call.pop 0 [],
          call.pop 0 []]).2 = [1, 2, 3] :=
  ⟨rfl, fifo_order _ rfl _, by decide⟩

/-- The scenario of the spec: capacity 2; push(1) and push(2) return at once;
push(3) is suspended until another fiber pops 1; draining then gives 2, 3. -/
theorem fifo_scenario_with_suspended_push :
    ((basic_concurrent_queue.ctor 2 true : basic_concurrent_queue Nat).run
        [call.push 1 [], call.push 2 [], call.push 3 []]).1.the_queue_ = [1, 2] ∧
    (((basic_concurrent_queue.ctor 2 true : basic_concurrent_queue Nat).run
        [call.push 1 [], call.push 2 []]).1.push 3 []).ret = none ∧
    (((basic_concurrent_queue.ctor 2 true : basic_concurrent_queue Nat).run
        [call.push 1 [], call.push 2 []]).1.push 3 [[action.try_pop 0]]).ret = some true ∧
    event.delivered_values ((basic_concurrent_queue.ctor 2 true).run
        [call.push 1 [], call.push 2 [], call.push 3 [[action.try_pop 0]], call.pop 0 [],
          call.pop 0 []]).2 = [1, 2, 3] := by
  decide

/-! ## Draining a closed queue -/

/-- On a closed queue `pop` never waits: it hands out the front if there is
one and reports failure otherwise. -/
theorem pop_of_closed (q : basic_concurrent_queue T) (h : q.opened_ = false)
    (popped_value : T) (ws : List (List (action T))) :
    q.pop popped_value ws =
      match q.the_queue_ with
      | [] => ⟨some false, popped_value, q, 0, []⟩
      | front :: rest => ⟨some true, front, q.pop_and_notify rest, 0, []⟩ := by
  have hc : basic_concurrent_queue.empty_and_opened q = false := by
    simp [basic_concurrent_queue.empty_and_opened, h]
  unfold basic_concurrent_queue.pop
  rw [wait_loop_of_not_cond _ q ws hc]
  cases hq : q.the_queue_ <;> simp [hq]

theorem pop_each_of_closed (q : basic_concurrent_queue T) (h : q.opened_ = false)
    (ps : List (T × List (List (action T)))) :
    (q.pop_each ps).map (fun r => (r.ret, r.popped_value, r.waits, r.others)) =
      (q.the_queue_.take ps.length).map (fun x => (some true, x, 0, [])) ++
        (ps.drop q.the_queue_.length).map (fun p => (some false, p.1, 0, [])) := by
  induction ps generalizing q with
  | nil => simp [basic_concurrent_queue.pop_each]
  | cons p ps ih =>
    simp only [basic_concurrent_queue.pop_each, pop_of_closed q h]
    cases hq : q.the_queue_ with
    | nil =>
      have := ih q h
      rw [hq] at this
      simpa using this
    | cons front rest =>
      have := ih (q.pop_and_notify rest) h
      simpa [basic_concurrent_queue.pop_and_notify] using this

/-- Claim C3: for every queue holding `x1..xK`, after `close()` consecutive
calls of `pop` (whatever their arguments hold and whatever wake-ups are on
offer) go as follows: the first K return true and deliver `x1..xK` in that
order, the ones after them return false and leave their argument as it was,
and none of them waits (no wait returned, nothing done by other fibers). -/
theorem closed_queue_drain (q : basic_concurrent_queue T)
    (ps : List (T × List (List (action T)))) :
    (q.close.pop_each ps).map (fun r => (r.ret, r.popped_value, r.waits, r.others)) =
      (q.the_queue_.take ps.length).map (fun x => (some true, x, 0, [])) ++
        (ps.drop q.the_queue_.length).map (fun p => (some false, p.1, 0, [])) :=
  pop_each_of_closed q.close rfl ps

/-! ## Pushing into a closed queue -/

/-- Claim C4: on a closed queue `q`, `push`, `try_push`, `try_push_for`,
`try_push_until` and `push_all` return false and `push_some` returns its
`first` argument, each without waiting and leaving the queue as it was.  When
an open full queue `q2` is closed by another fiber during the first wait of
`push`, `push` returns false after that wait and the queue is the one the
other fibers left.  In general, after any wake-ups, `push` returns false
exactly when the queue it ends on is closed, and the queue is then as the
other fibers left it during the waits: nothing was enqueued. -/
theorem push_into_closed_queue_rejected (q : basic_concurrent_queue T)
    (h : q.is_open = false) (q2 : basic_concurrent_queue T) (data : T) (xs : List T)
    (ws : List (List (action T))) (tws : List (wakeup T)) :
    q.push data ws = ⟨some false, q, 0, []⟩ ∧
    q.try_push data = (false, q) ∧
    q.try_push_for data tws = ⟨some false, q, 0, []⟩ ∧
    q.try_push_until data tws = ⟨some false, q, 0, []⟩ ∧
    q.push_all xs = (false, q) ∧
    q.push_some xs = (xs, q) ∧
    (q2.is_open = true → q2.size ≥ q2.capacity →
      ∀ w, (q2.interfere w).1.is_open = false →
        q2.push data (w :: ws) = ⟨some false, (q2.interfere w).1, 1, (q2.interfere w).2⟩) ∧
    ((q2.push data ws).ret = some false ↔ (q2.push data ws).q.is_open = false) ∧
    ((q2.push data ws).ret = some false →
      (q2.push data ws).q = (q2.interfere (ws.take (q2.push data ws).waits).flatten).1) := by
  have h1 : q.opened_ = false := h
  refine ⟨?_, ?_, ?_, ?_, ?_, ?_, ?_, ?_, ?_⟩
  · simp [basic_concurrent_queue.push, h1]
  · simp [basic_concurrent_queue.try_push, h1]
  · simp [basic_concurrent_queue.try_push_for, h1]
  · simp [basic_concurrent_queue.try_push_until, h1]
  · simp [basic_concurrent_queue.push_all, h1]
  · simp [basic_concurrent_queue.push_some, h1]
  · intro ho hfull w hw
    have ho1 : q2.opened_ = true := ho
    have hfull1 : q2.capacity_ ≤ q2.the_queue_.length := hfull
    have hw1 : (q2.interfere w).1.opened_ = false := hw
    have hc : basic_concurrent_queue.full_and_opened q2 = true := by
      simp [basic_concurrent_queue.full_and_opened, ho1, hfull1]
    have hc2 : basic_concurrent_queue.full_and_opened (q2.interfere w).1 = false := by
      simp [basic_concurrent_queue.full_and_opened, hw1]
    simp [basic_concurrent_queue.push, ho1, basic_concurrent_queue.wait_loop, hc,
      wait_loop_of_not_cond _ _ ws hc2, hw1]
  · have hs := wait_loop_suspended basic_concurrent_queue.full_and_opened q2 ws
    unfold basic_concurrent_queue.push basic_concurrent_queue.is_open
    split
    · rename_i h2
      simpa using h2
    · simp only []
      split
      · rename_i h3
        rw [hs] at h3
        simp only [basic_concurrent_queue.full_and_opened, Bool.and_eq_true] at h3
        simp [h3.2]
      · split
        · rename_i h4
          simpa using h4
        · rename_i h4
          simpa [basic_concurrent_queue.push_and_notify] using h4
  · have hq := wait_loop_queue basic_concurrent_queue.full_and_opened q2 ws
    unfold basic_concurrent_queue.push
    split
    · intro _
      simp [basic_concurrent_queue.interfere]
    · simp only []
      split
      · simp
      · split
        · intro _
          exact hq
        · simp

/-- A closed queue for claim C4, and a full open queue that another fiber
closes while `push` waits for space. -/
theorem push_into_closed_queue_rejected_witness :
    basic_concurrent_queue.closed_example.is_open = false ∧
    (basic_concurrent_queue.closed_example.push 7 [[action.close]] =
      ⟨some false, basic_concurrent_queue.closed_example, 0, []⟩ ∧
    basic_concurrent_queue.closed_example.try_push 7 =
      (false, basic_concurrent_queue.closed_example) ∧
    basic_concurrent_queue.closed_example.try_push_for 7 [] =
      ⟨some false, basic_concurrent_queue.closed_example, 0, []⟩ ∧
    basic_concurrent_queue.closed_example.try_push_until 7 [] =
      ⟨some false, basic_concurrent_queue.closed_example, 0, []⟩ ∧
    basic_concurrent_queue.closed_example.push_all [8, 9] =
      (false, basic_concurrent_queue.closed_example) ∧
    basic_concurrent_queue.closed_example.push_some [8, 9] =
      ([8, 9], basic_concurrent_queue.closed_example) ∧
    (basic_concurrent_queue.full_example.is_open = true →
      basic_concurrent_queue.full_example.size ≥ basic_concurrent_queue.full_example.capacity →
      ∀ w, (basic_concurrent_queue.full_example.interfere w).1.is_open = false →
        basic_concurrent_queue.full_example.push 7 (w :: [[action.close]]) =
          ⟨some false, (basic_concurrent_queue.full_example.interfere w).1, 1,
            (basic_concurrent_queue.full_example.interfere w).2⟩) ∧
    ((basic_concurrent_queue.full_example.push 7 [[action.close]]).ret = some false ↔
      (basic_concurrent_queue.full_example.push 7 [[action.close]]).q.is_open = false) ∧
    ((basic_concurrent_queue.full_example.push 7 [[action.close]]).ret = some false →
      (basic_concurrent_queue.full_example.push 7 [[action.close]]).q =
        (basic_concurrent_queue.full_example.interfere
          (([[action.close]] : List (List (action Nat))).take
            (basic_concurrent_queue.full_example.push 7
              [[action.close]]).waits).flatten).1)) ∧
    basic_concurrent_queue.full_example.push 7 [[action.close]] =
      ⟨some false, basic_concurrent_queue.full_example.close, 1, []⟩ ∧
    (basic_concurrent_queue.full_example.push 7 [[action.close]]).q.the_queue_ = [1] :=
  ⟨rfl,
    push_into_closed_queue_rejected basic_concurrent_queue.closed_example rfl
      basic_concurrent_queue.full_example 7 [8, 9] [[action.close]] [],
    by decide, by decide⟩

/-- Draining the closed queue that holds 1 and 2 with four pops. -/
theorem closed_queue_drain_example :
    (basic_concurrent_queue.closed_example.pop_each [(0, []), (0, []), (0, [[]]), (5, [])]).map
        (fun r => (r.ret, r.popped_value, r.waits)) =
      [(some true, 1, 0), (some true, 2, 0), (some false, 0, 0), (some false, 5, 0)] := by
  decide

/-! ## The non-blocking members -/

/-- Claim C5: `try_push(x)` takes no wake-ups, so it never waits.  It returns
true exactly when the queue is open and `size() < capacity()`; then the
contents are the old contents followed by `x` (the open flag and the capacity
are the old ones, and the not-empty condition is notified once); otherwise it
returns false and the queue, contents and open flag included, is unchanged. -/
theorem try_push_decides_by_current_state (q : basic_concurrent_queue T) (x : T) :
    ((q.try_push x).1 = true ↔ (q.is_open = true ∧ q.size < q.capacity)) ∧
    ((q.try_push x).1 = true →
      (q.try_push x).2 =
        { q with the_queue_ := q.the_queue_ ++ [x], empty_cv_ := q.empty_cv_.notify_one }) ∧
    ((q.try_push x).1 = false → (q.try_push x).2 = q) := by
  unfold basic_concurrent_queue.try_push basic_concurrent_queue.is_open
    basic_concurrent_queue.size basic_concurrent_queue.capacity
  split
  · rename_i h
    have h1 : q.opened_ = false := by simpa using h
    simp [h1]
  · rename_i h
    have h1 : q.opened_ = true := by simpa using h
    split
    · rename_i h2
      simp [h1, Nat.not_lt.mpr h2]
    · rename_i h2
      simp [h1, Nat.lt_of_not_le h2, basic_concurrent_queue.push_and_notify]

/-- Claim C6: `try_pop(v)` takes no wake-ups, so it never waits.  It returns
false exactly when the queue is empty, open or closed, and then leaves the
queue and `v` as they were; otherwise it returns true, `v` receives the
oldest element and the contents are the old contents without their first
element (the not-full condition is notified once). -/
theorem try_pop_decides_by_current_state (q : basic_concurrent_queue T) (v : T) :
    ((q.try_pop v).1 = false ↔ q.empty = true) ∧
    (q.empty = true → q.try_pop v = (false, v, q)) ∧
    (∀ front rest, q.the_queue_ = front :: rest →
      q.try_pop v =
        (true, front, { q with the_queue_ := rest, full_cv_ := q.full_cv_.notify_one })) := by
  unfold basic_concurrent_queue.try_pop basic_concurrent_queue.empty
  cases hq : q.the_queue_ with
  | nil => simp
  | cons front rest => simp [basic_concurrent_queue.pop_and_notify]

/-! ## The timed members -/

/-- Claim C7, where the code breaks it: on an open full queue `qf` the timed
pushes, and on an open empty queue `qe` the timed pops, whose first `n` timed
waits all report `cv_status::timeout` while no other fiber touches the queue,
have not returned: each is suspended in wait number `n + 1`, with the queue
unchanged.  The loop `while(...) { ret=cv.wait_for(...); }` tests the queue
only, so after a timeout on an unchanged queue it waits again, and no number
of timeouts makes the call return false. -/
theorem timed_members_wait_again_after_timeout (qf qe : basic_concurrent_queue T)
    (hf1 : qf.is_open = true) (hf2 : qf.size ≥ qf.capacity)
    (he1 : qe.is_open = true) (he2 : qe.empty = true) (x v : T) (n : Nat) :
    qf.try_push_for x (List.replicate n ⟨[], cv_status.timeout⟩) = ⟨none, qf, n, []⟩ ∧
    qf.try_push_until x (List.replicate n ⟨[], cv_status.timeout⟩) = ⟨none, qf, n, []⟩ ∧
    qe.try_pop_for v (List.replicate n ⟨[], cv_status.timeout⟩) = ⟨none, v, qe, n, []⟩ ∧
    qe.try_pop_until v (List.replicate n ⟨[], cv_status.timeout⟩) = ⟨none, v, qe, n, []⟩ := by
  have hf1' : qf.opened_ = true := hf1
  have he1' : qe.opened_ = true := he1
  have hcf : basic_concurrent_queue.full_and_opened qf = true := by
    have : qf.capacity_ ≤ qf.the_queue_.length := hf2
    simp [basic_concurrent_queue.full_and_opened, hf1', this]
  have hce : basic_concurrent_queue.empty_and_opened qe = true := by
    have : qe.the_queue_.isEmpty = true := he2
    simp [basic_concurrent_queue.empty_and_opened, he1', this]
  have hwf := timed_wait_loop_timeouts basic_concurrent_queue.full_and_opened
    cv_status.no_timeout qf n hcf
  have hwe := timed_wait_loop_timeouts basic_concurrent_queue.empty_and_opened
    cv_status.no_timeout qe n hce
  refine ⟨?_, ?_, ?_, ?_⟩
  · simp [basic_concurrent_queue.try_push_for, hf1', hwf]
  · simp [basic_concurrent_queue.try_push_until, hf1', hwf]
  · simp [basic_concurrent_queue.try_pop_for, hwe]
  · simp [basic_concurrent_queue.try_pop_until, hwe]

/-- A full open queue of capacity 1 and an empty open queue, three timeouts:
the timed members are still waiting. -/
theorem timed_members_wait_again_after_timeout_witness :
    basic_concurrent_queue.full_example.is_open = true ∧
    basic_concurrent_queue.full_example.size ≥ basic_concurrent_queue.full_example.capacity ∧
    basic_concurrent_queue.empty_example.is_open = true ∧
    basic_concurrent_queue.empty_example.empty = true ∧
    (basic_concurrent_queue.full_example.try_push_for 2
        (List.replicate 3 ⟨[], cv_status.timeout⟩) =
      ⟨none, basic_concurrent_queue.full_example, 3, []⟩ ∧
    basic_concurrent_queue.full_example.try_push_until 2
        (List.replicate 3 ⟨[], cv_status.timeout⟩) =
      ⟨none, basic_concurrent_queue.full_example, 3, []⟩ ∧
    basic_concurrent_queue.empty_example.try_pop_for 0
        (List.replicate 3 ⟨[], cv_status.timeout⟩) =
      ⟨none, 0, basic_concurrent_queue.empty_example, 3, []⟩ ∧
    basic_concurrent_queue.empty_example.try_pop_until 0
        (List.replicate 3 ⟨[], cv_status.timeout⟩) =
      ⟨none, 0, basic_concurrent_queue.empty_example, 3, []⟩) :=
  ⟨rfl, by decide, rfl, rfl,
    timed_members_wait_again_after_timeout basic_concurrent_queue.full_example
      basic_concurrent_queue.empty_example rfl (by decide) rfl rfl 2 0 3⟩

/-! ## The bound, `push_all` apart

Every member but `push_all` tests `the_queue_.size()` against `capacity_`
before it appends, and keeps `size() ≤ capacity()`. -/

open basic_concurrent_queue (keeps_bound)

theorem keeps_bound_refl (q : basic_concurrent_queue T) : keeps_bound q q :=
  ⟨rfl, id⟩

theorem keeps_bound_trans {q1 q2 q3 : basic_concurrent_queue T} (h12 : keeps_bound q1 q2)
    (h23 : keeps_bound q2 q3) : keeps_bound q1 q3 :=
  ⟨h23.1.trans h12.1, fun h => h23.2 (h12.2 h)⟩

theorem keeps_bound_push_and_notify (q : basic_concurrent_queue T) (data : T)
    (h : q.the_queue_.length < q.capacity_) : keeps_bound q (q.push_and_notify data) := by
  refine ⟨rfl, fun _ => ?_⟩
  simp only [basic_concurrent_queue.push_and_notify, List.length_append, List.length_singleton]
  omega

theorem keeps_bound_pop_and_notify (q : basic_concurrent_queue T) (front : T) (rest : List T)
    (h : q.the_queue_ = front :: rest) : keeps_bound q (q.pop_and_notify rest) := by
  refine ⟨rfl, fun hb => ?_⟩
  rw [h] at hb
  simp only [basic_concurrent_queue.pop_and_notify]
  simp only [List.length_cons] at hb
  omega

theorem keeps_bound_push_some_loop (q : basic_concurrent_queue T) (xs : List T) :
    keeps_bound q (q.push_some_loop xs).2 := by
  induction xs generalizing q with
  | nil => exact keeps_bound_refl q
  | cons x xs ih =>
    unfold basic_concurrent_queue.push_some_loop
    split
    · rename_i h
      exact keeps_bound_trans (keeps_bound_push_and_notify q x h) (ih _)
    · exact keeps_bound_refl q

theorem keeps_bound_act (q : basic_concurrent_queue T) (a : action T)
    (ha : basic_concurrent_queue.is_push_all a = false) : keeps_bound q (q.act a).1 := by
  cases a with
  | «open» => exact ⟨rfl, id⟩
  | close => exact ⟨rfl, id⟩
  | try_push data =>
    simp only [basic_concurrent_queue.act, basic_concurrent_queue.try_push]
    split
    · exact keeps_bound_refl q
    · split
      · exact keeps_bound_refl q
      · rename_i h
        exact keeps_bound_push_and_notify q data (Nat.lt_of_not_le h)
  | push_some xs =>
    simp only [basic_concurrent_queue.act, basic_concurrent_queue.push_some]
    split
    · exact keeps_bound_refl q
    · exact keeps_bound_push_some_loop q xs
  | push_all xs => simp [basic_concurrent_queue.is_push_all] at ha
  | try_pop popped_value =>
    simp only [basic_concurrent_queue.act, basic_concurrent_queue.try_pop]
    split
    · exact keeps_bound_refl q
    · rename_i front rest h
      exact keeps_bound_pop_and_notify q front rest h

theorem keeps_bound_interfere (q : basic_concurrent_queue T) (as : List (action T))
    (has : as.any basic_concurrent_queue.is_push_all = false) :
    keeps_bound q (q.interfere as).1 := by
  induction as generalizing q with
  | nil => exact keeps_bound_refl q
  | cons a as ih =>
    simp only [List.any_cons, Bool.or_eq_false_iff] at has
    exact keeps_bound_trans (keeps_bound_act q a has.1) (ih _ has.2)

theorem keeps_bound_wait_loop (cond : basic_concurrent_queue T → Bool)
    (q : basic_concurrent_queue T) (ws : List (List (action T)))
    (hws : ws.any (fun w => w.any basic_concurrent_queue.is_push_all) = false) :
    keeps_bound q (basic_concurrent_queue.wait_loop cond q ws).q := by
  induction ws generalizing q with
  | nil => exact keeps_bound_refl q
  | cons w ws ih =>
    simp only [List.any_cons, Bool.or_eq_false_iff] at hws
    unfold basic_concurrent_queue.wait_loop
    split
    · exact keeps_bound_trans (keeps_bound_interfere q w hws.1) (ih _ hws.2)
    · exact keeps_bound_refl q

theorem keeps_bound_timed_wait_loop (cond : basic_concurrent_queue T → Bool) (ret : cv_status)
    (q : basic_concurrent_queue T) (ws : List (wakeup T))
    (hws : ws.any (fun w => w.others.any basic_concurrent_queue.is_push_all) = false) :
    keeps_bound q (basic_concurrent_queue.timed_wait_loop cond ret q ws).2.q := by
  induction ws generalizing q ret with
  | nil => exact keeps_bound_refl q
  | cons w ws ih =>
    simp only [List.any_cons, Bool.or_eq_false_iff] at hws
    unfold basic_concurrent_queue.timed_wait_loop
    split
    · exact keeps_bound_trans (keeps_bound_interfere q w.others hws.1) (ih _ _ hws.2)
    · exact keeps_bound_refl q

/-- After a push loop that is not suspended on an open queue there is room. -/
theorem room_of_not_full_and_opened (q : basic_concurrent_queue T)
    (hc : basic_concurrent_queue.full_and_opened q = false) (ho : ¬ (!q.opened_) = true) :
    q.the_queue_.length < q.capacity_ := by
  have ho1 : q.opened_ = true := by simpa using ho
  simp only [basic_concurrent_queue.full_and_opened, ho1, Bool.and_true,
    decide_eq_false_iff_not] at hc
  omega

theorem keeps_bound_push (q : basic_concurrent_queue T) (data : T)
    (ws : List (List (action T)))
    (hws : ws.any (fun w => w.any basic_concurrent_queue.is_push_all) = false) :
    keeps_bound q (q.push data ws).q := by
  have hw := keeps_bound_wait_loop basic_concurrent_queue.full_and_opened q ws hws
  have hs := wait_loop_suspended basic_concurrent_queue.full_and_opened q ws
  unfold basic_concurrent_queue.push
  split
  · exact keeps_bound_refl q
  · simp only []
    split
    · exact hw
    · split
      · exact hw
      · rename_i h1 h2
        rw [hs] at h1
        exact keeps_bound_trans hw
          (keeps_bound_push_and_notify _ data
            (room_of_not_full_and_opened _ (by simpa using h1) h2))

theorem keeps_bound_try_push_for (q : basic_concurrent_queue T) (data : T)
    (ws : List (wakeup T))
    (hws : ws.any (fun w => w.others.any basic_concurrent_queue.is_push_all) = false) :
    keeps_bound q (q.try_push_for data ws).q := by
  have hw := keeps_bound_timed_wait_loop basic_concurrent_queue.full_and_opened
    cv_status.no_timeout q ws hws
  have hs := timed_wait_loop_suspended basic_concurrent_queue.full_and_opened
    cv_status.no_timeout q ws
  unfold basic_concurrent_queue.try_push_for
  split
  · exact keeps_bound_refl q
  · simp only []
    split
    · exact hw
    · split
      · exact hw
      · rename_i h1 h2
        rw [hs] at h1
        split
        · exact keeps_bound_trans hw
            (keeps_bound_push_and_notify _ data
              (room_of_not_full_and_opened _ (by simpa using h1) h2))
        · exact hw

theorem keeps_bound_pop (q : basic_concurrent_queue T) (popped_value : T)
    (ws : List (List (action T)))
    (hws : ws.any (fun w => w.any basic_concurrent_queue.is_push_all) = false) :
    keeps_bound q (q.pop popped_value ws).q := by
  have hw := keeps_bound_wait_loop basic_concurrent_queue.empty_and_opened q ws hws
  unfold basic_concurrent_queue.pop
  simp only []
  split
  · exact hw
  · split
    · exact hw
    · rename_i front rest h
      exact keeps_bound_trans hw (keeps_bound_pop_and_notify _ front rest h)

theorem keeps_bound_try_pop_for (q : basic_concurrent_queue T) (popped_value : T)
    (ws : List (wakeup T))
    (hws : ws.any (fun w => w.others.any basic_concurrent_queue.is_push_all) = false) :
    keeps_bound q (q.try_pop_for popped_value ws).q := by
  have hw := keeps_bound_timed_wait_loop basic_concurrent_queue.empty_and_opened
    cv_status.no_timeout q ws hws
  unfold basic_concurrent_queue.try_pop_for
  simp only []
  split
  · exact hw
  · split
    · exact hw
    · rename_i front rest h
      split
      · exact keeps_bound_trans hw (keeps_bound_pop_and_notify _ front rest h)
      · exact hw

theorem keeps_bound_exec (q : basic_concurrent_queue T) (c : call T)
    (hc : basic_concurrent_queue.uses_push_all c = false) : keeps_bound q (q.exec c).1 := by
  cases c with
  | «open» => exact keeps_bound_act q _ rfl
  | close => exact keeps_bound_act q _ rfl
  | push data ws => exact keeps_bound_push q data ws hc
  | push_some xs => exact keeps_bound_act q _ rfl
  | push_all xs => simp [basic_concurrent_queue.uses_push_all] at hc
  | try_push data => exact keeps_bound_act q _ rfl
  | try_push_for data ws => exact keeps_bound_try_push_for q data ws hc
  | try_push_until data ws => exact keeps_bound_try_push_for q data ws hc
  | pop popped_value ws => exact keeps_bound_pop q popped_value ws hc
  | try_pop popped_value => exact keeps_bound_act q _ rfl
  | try_pop_for popped_value ws => exact keeps_bound_try_pop_for q popped_value ws hc
  | try_pop_until popped_value ws => exact keeps_bound_try_pop_for q popped_value ws hc

/-- Every queue reached from a freshly constructed one by member calls none of
which is `push_all` (nor has `push_all` called by another fiber during its
waits) has `size() ≤ capacity()`, and the capacity it was constructed with. -/
theorem bound_kept_without_push_all (capacity : Nat) (auto_open : Bool) (cs : List (call T))
    (hcs : cs.any basic_concurrent_queue.uses_push_all = false) :
    ((basic_concurrent_queue.ctor capacity auto_open).run cs).1.size ≤
        ((basic_concurrent_queue.ctor capacity auto_open).run cs).1.capacity ∧
      ((basic_concurrent_queue.ctor capacity auto_open).run cs).1.capacity = capacity := by
  have key : ∀ (cs : List (call T)) (q : basic_concurrent_queue T),
      cs.any basic_concurrent_queue.uses_push_all = false → keeps_bound q (q.run cs).1 := by
    intro cs
    induction cs with
    | nil => intro q _; exact keeps_bound_refl q
    | cons c cs ih =>
      intro q h
      simp only [List.any_cons, Bool.or_eq_false_iff] at h
      exact keeps_bound_trans (keeps_bound_exec q c h.1) (ih _ h.2)
  have hk := key cs (basic_concurrent_queue.ctor capacity auto_open) hcs
  exact ⟨hk.2 (Nat.zero_le _), hk.1⟩

end queue_lemmas

/-! ## Task objects -/

section task_lemmas

variable {Fn R E Args X : Type}

/-- Claim C8: running a Pending task returns with the callable called exactly
once (the callable is left as one call on `args` leaves it) and the task
settled: when the call returns `v` the task is `HasValue v`, for a `void` task
the call is made and the task is `HasValue ()`, a value-less settled state, and
in no case is the task Pending afterwards. -/
theorem run_settles_task (invoke : Fn → Args → Except E R × Fn)
    (invoke_void : Fn → Args → Except E X × Fn) (t : task_object Fn R E)
    (tv : task_object Fn Unit E) (args : Args) (h : t.base = task_base.Pending)
    (hv : tv.base = task_base.Pending) :
    (∃ t1, t.run invoke args = Except.ok t1 ∧ t1.fn_ = (invoke t.fn_ args).2 ∧
      t1.base ≠ task_base.Pending ∧
      ∀ v, (invoke t.fn_ args).1 = Except.ok v → t1.base = task_base.HasValue v) ∧
    (∃ t1, tv.run_void invoke_void args = Except.ok t1 ∧
      t1.fn_ = (invoke_void tv.fn_ args).2 ∧ t1.base ≠ task_base.Pending ∧
      ∀ x, (invoke_void tv.fn_ args).1 = Except.ok x → t1.base = task_base.HasValue ()) := by
  constructor
  · unfold task_object.run
    rcases hi : invoke t.fn_ args with ⟨r, fn1⟩
    cases r with
    | error e => exact ⟨_, rfl, rfl, by simp [h, task_base.set_exception], by simp⟩
    | ok v =>
      refine ⟨_, rfl, rfl, by simp [h, task_base.set_value], ?_⟩
      intro v1 hv1
      simp only [Except.ok.injEq] at hv1
      simp [h, task_base.set_value, hv1]
  · unfold task_object.run_void
    rcases hi : invoke_void tv.fn_ args with ⟨r, fn1⟩
    cases r with
    | error e => exact ⟨_, rfl, rfl, by simp [hv, task_base.set_exception], by simp⟩
    | ok x => exact ⟨_, rfl, rfl, by simp [hv, task_base.set_value], by simp [hv, task_base.set_value]⟩

/-- A fresh task around a callable that counts its calls: after `run` the count
is 1 and the task holds the value. -/
theorem run_settles_task_witness :
    (task_object.ctor 0 : task_object Nat Nat String).base = task_base.Pending ∧
    (task_object.ctor 0 : task_object Nat Unit String).base = task_base.Pending ∧
    ((∃ t1, (task_object.ctor 0 : task_object Nat Nat String).run
        task_object.counting_callable 41 = Except.ok t1 ∧
      t1.fn_ = (task_object.counting_callable
        (task_object.ctor 0 : task_object Nat Nat String).fn_ 41).2 ∧
      t1.base ≠ task_base.Pending ∧
      ∀ v, (task_object.counting_callable
        (task_object.ctor 0 : task_object Nat Nat String).fn_ 41).1 = Except.ok v →
        t1.base = task_base.HasValue v) ∧
    (∃ t1, (task_object.ctor 0 : task_object Nat Unit String).run_void
        task_object.counting_callable 41 = Except.ok t1 ∧
      t1.fn_ = (task_object.counting_callable
        (task_object.ctor 0 : task_object Nat Unit String).fn_ 41).2 ∧
      t1.base ≠ task_base.Pending ∧
      ∀ x, (task_object.counting_callable
        (task_object.ctor 0 : task_object Nat Unit String).fn_ 41).1 = Except.ok x →
        t1.base = task_base.HasValue ())) ∧
    (task_object.ctor 0 : task_object Nat Nat String).run task_object.counting_callable 41 =
      Except.ok ⟨task_base.HasValue 42, 1⟩ ∧
    (task_object.ctor 0 : task_object Nat Unit String).run_void task_object.counting_callable 41 =
      Except.ok ⟨task_base.HasValue (), 1⟩ :=
  ⟨rfl, rfl,
    run_settles_task task_object.counting_callable task_object.counting_callable
      (task_object.ctor 0) (task_object.ctor 0) 41 rfl rfl,
    rfl, rfl⟩

/-- Claim C9: when the callable raises `e`, `run` on a Pending task returns
normally (it raises nothing to its caller) and leaves the task in
`HasException e`, the callable having been called once; so do the primary
template and the specialisation for `void`. -/
theorem run_captures_failure (invoke : Fn → Args → Except E R × Fn)
    (invoke_void : Fn → Args → Except E X × Fn) (t : task_object Fn R E)
    (tv : task_object Fn Unit E) (args : Args) (e : E) (h : t.base = task_base.Pending)
    (hv : tv.base = task_base.Pending) (hf : (invoke t.fn_ args).1 = Except.error e)
    (hfv : (invoke_void tv.fn_ args).1 = Except.error e) :
    t.run invoke args = Except.ok ⟨task_base.HasException e, (invoke t.fn_ args).2⟩ ∧
    tv.run_void invoke_void args =
      Except.ok ⟨task_base.HasException e, (invoke_void tv.fn_ args).2⟩ := by
  constructor
  · unfold task_object.run
    rcases hi : invoke t.fn_ args with ⟨r, fn1⟩
    rw [hi] at hf
    simp only at hf
    subst hf
    simp [h, task_base.set_exception]
  · unfold task_object.run_void
    rcases hi : invoke_void tv.fn_ args with ⟨r, fn1⟩
    rw [hi] at hfv
    simp only at hfv
    subst hfv
    simp [hv, task_base.set_exception]

/-- A fresh task around a callable that raises its argument: `run` returns and
the task holds the failure. -/
theorem run_captures_failure_witness :
    (task_object.ctor 0 : task_object Nat Nat String).base = task_base.Pending ∧
    (task_object.ctor 0 : task_object Nat Unit String).base = task_base.Pending ∧
    (task_object.raising_callable (task_object.ctor 0 : task_object Nat Nat String).fn_
      "bad").1 = Except.error "bad" ∧
    (task_object.raising_callable (task_object.ctor 0 : task_object Nat Unit String).fn_
      "bad").1 = Except.error "bad" ∧
    ((task_object.ctor 0 : task_object Nat Nat String).run task_object.raising_callable "bad" =
      Except.ok ⟨task_base.HasException "bad",
        (task_object.raising_callable (task_object.ctor 0 : task_object Nat Nat String).fn_
          "bad").2⟩ ∧
    (task_object.ctor 0 : task_object Nat Unit String).run_void task_object.raising_callable
        "bad" =
      Except.ok ⟨task_base.HasException "bad",
        (task_object.raising_callable (task_object.ctor 0 : task_object Nat Unit String).fn_
          "bad").2⟩) :=
  ⟨rfl, rfl, rfl, rfl,
    run_captures_failure task_object.raising_callable task_object.raising_callable
      (task_object.ctor 0) (task_object.ctor 0) "bad" "bad" rfl rfl rfl rfl⟩

end task_lemmas

/-! ## Fiber-specific storage -/

/-- What `set_tss_data` stores is what `get_tss_data` reads back. -/
theorem get_tss_data_set_tss_data (key : Nat) (func : Option tss_cleanup_function)
    (tss_data : Nat) (cleanup_existing : Bool) (t : fiber_tss) :
    detail.get_tss_data key (detail.set_tss_data key func tss_data cleanup_existing t) =
      tss_data := by
  simp only [detail.get_tss_data, detail.set_tss_data, detail.store, if_true]
  by_cases h : (func.isSome || decide (tss_data ≠ 0)) = true
  · simp only [h, if_true]
  · simp only [h]
    simp only [Bool.or_eq_true, decide_eq_true_eq, not_or, not_not] at h
    exact h.2.symm

/-- The storage of a fiber that has set nothing. -/
theorem reset_example :
    ((thread_specific_ptr.ctor 5).reset 22
      ((thread_specific_ptr.ctor 5).reset 11 ⟨fun _ => none, []⟩)).cleaned =
      [(tss_cleanup_function.delete_data, 11)] ∧
    (thread_specific_ptr.ctor 5).get ((thread_specific_ptr.ctor 5).reset 22
      ((thread_specific_ptr.ctor 5).reset 11 ⟨fun _ => none, []⟩)) = 22 ∧
    ((thread_specific_ptr.ctor 5).reset 11
      ((thread_specific_ptr.ctor 5).reset 11 ⟨fun _ => none, []⟩)).cleaned = [] ∧
    ((thread_specific_ptr.ctor 5).reset 0
      ((thread_specific_ptr.ctor 5).reset 0 ⟨fun _ => none, []⟩)).cleaned = [] := by
  decide

/-- Claim C11: `release()` returns the stored pointer, null or not, calls no
cleanup function, and afterwards `get()` returns null for the current fiber;
the slots of other keys are as they were. -/
theorem release_returns_and_clears (p : thread_specific_ptr) (t : fiber_tss) :
    (p.release t).1 = p.get t ∧
    (p.release t).2.cleaned = t.cleaned ∧
    p.get (p.release t).2 = 0 ∧
    (∀ key, key ≠ p.key → (p.release t).2.slots key = t.slots key) := by
  refine ⟨rfl, ?_, ?_, ?_⟩
  · simp only [thread_specific_ptr.release, detail.set_tss_data]
    rcases hs : t.slots p.key with _ | ⟨func, old⟩
    · rfl
    · cases func <;> simp
  · exact get_tss_data_set_tss_data _ _ _ _ _
  · intro key hk
    simp [thread_specific_ptr.release, detail.set_tss_data, detail.store, hk]

/-- A slot that holds 11 with the default cleanup: `release()` hands 11 back,
calls nothing, and leaves null. -/
theorem release_example :
    ((thread_specific_ptr.ctor 5).release
      ((thread_specific_ptr.ctor 5).reset 11 ⟨fun _ => none, []⟩)).1 = 11 ∧
    ((thread_specific_ptr.ctor 5).release
      ((thread_specific_ptr.ctor 5).reset 11 ⟨fun _ => none, []⟩)).2.cleaned = [] ∧
    (thread_specific_ptr.ctor 5).get ((thread_specific_ptr.ctor 5).release
      ((thread_specific_ptr.ctor 5).reset 11 ⟨fun _ => none, []⟩)).2 = 0 := by
  decide

section queue_members

variable {T : Type}

/-! ## `open` and `close` -/

/-- Claim C18: `open()` and `close()` change only the open flag and, for
`close()`, the notification counts.  `open()` returns true and leaves the
queue open with the contents, the capacity and both condition variables as
they were, so a `try_push` that follows on a queue with `size() < capacity()`
succeeds whether the queue was open or closed before.  `close()` leaves the
queue closed with the same contents and capacity, and calls `notify_all`
once on the not-full and once on the not-empty condition. -/
theorem open_close_change_only_the_flag (q : basic_concurrent_queue T) (x : T) :
    (q.open).1 = true ∧
    (q.open).2 = { q with opened_ := true } ∧
    (q.open).2.is_open = true ∧
    (q.size < q.capacity → (q.open).2.try_push x = (true, (q.open).2.push_and_notify x)) ∧
    q.close =
      { q with
        opened_ := false
        full_cv_ := ⟨q.full_cv_.notify_one_calls, q.full_cv_.notify_all_calls + 1⟩
        empty_cv_ := ⟨q.empty_cv_.notify_one_calls, q.empty_cv_.notify_all_calls + 1⟩ } ∧
    q.close.is_open = false ∧
    (q.open).2.the_queue_ = q.the_queue_ ∧ (q.open).2.capacity = q.capacity ∧
    q.close.the_queue_ = q.the_queue_ ∧ q.close.capacity = q.capacity := by
  refine ⟨rfl, rfl, rfl, ?_, rfl, rfl, rfl, rfl, rfl, rfl⟩
  intro h
  have h1 : q.the_queue_.length < q.capacity_ := h
  simp [basic_concurrent_queue.open, basic_concurrent_queue.try_push, Nat.not_le.mpr h1]

/-- A closed queue with room: after `open()` it takes an element. -/
theorem open_example :
    ((basic_concurrent_queue.ctor 1 true : basic_concurrent_queue Nat).close.try_push 7).1 =
      false ∧
    (((basic_concurrent_queue.ctor 1 true : basic_concurrent_queue Nat).close.open).2.try_push
      7).1 = true := by
  decide

/-! ## `push_some` -/

/-- The loop of `push_some` in closed form: it appends the first
`min |xs| (capacity - size)` elements, notifies once for each of them, and
hands the others back. -/
theorem push_some_loop_eq (q : basic_concurrent_queue T) (xs : List T) :
    q.push_some_loop xs =
      (xs.drop (min xs.length (q.capacity_ - q.the_queue_.length)),
        { q with
          the_queue_ :=
            q.the_queue_ ++ xs.take (min xs.length (q.capacity_ - q.the_queue_.length))
          empty_cv_ :=
            ⟨q.empty_cv_.notify_one_calls + min xs.length (q.capacity_ - q.the_queue_.length),
              q.empty_cv_.notify_all_calls⟩ }) := by
  induction xs generalizing q with
  | nil => simp [basic_concurrent_queue.push_some_loop]
  | cons x xs ih =>
    unfold basic_concurrent_queue.push_some_loop
    split
    · rename_i h
      rw [ih]
      have e : min (x :: xs).length (q.capacity_ - q.the_queue_.length) =
          min xs.length ((q.push_and_notify x).capacity_ -
            (q.push_and_notify x).the_queue_.length) + 1 := by
        simp only [basic_concurrent_queue.push_and_notify, List.length_cons, List.length_append,
          List.length_nil]
        omega
      rw [e]
      simp only [basic_concurrent_queue.push_and_notify, CVType.notify_one, List.drop_succ_cons,
        List.take_succ_cons, List.append_assoc, List.singleton_append, Prod.mk.injEq,
        basic_concurrent_queue.mk.injEq, CVType.mk.injEq, true_and, and_true]
      omega
    · rename_i h
      have e : q.capacity_ - q.the_queue_.length = 0 := by omega
      simp [e]

/-- Claim C15, as amended: on an open queue `push_some` never waits, appends
exactly the first `k = min(|xs|, capacity() - size())` elements of the range
in order (`k = 0` when `size() ≥ capacity()`), returns the position of the
first element not pushed, calls `notify_one` on the not-empty condition once
per element pushed and changes nothing else; and when `size() ≤ capacity()`
held on entry it holds afterwards. -/
theorem push_some_pushes_longest_prefix_that_fits (q : basic_concurrent_queue T)
    (ho : q.is_open = true) (xs : List T) :
    (q.push_some xs).1 = xs.drop (min xs.length (q.capacity - q.size)) ∧
    (q.push_some xs).2 =
      { q with
        the_queue_ := q.the_queue_ ++ xs.take (min xs.length (q.capacity - q.size))
        empty_cv_ :=
          ⟨q.empty_cv_.notify_one_calls + min xs.length (q.capacity - q.size),
            q.empty_cv_.notify_all_calls⟩ } ∧
    (q.size ≥ q.capacity → min xs.length (q.capacity - q.size) = 0) ∧
    (q.size ≤ q.capacity → (q.push_some xs).2.size ≤ (q.push_some xs).2.capacity) := by
  have ho1 : q.opened_ = true := ho
  have hp : q.push_some xs = q.push_some_loop xs := by
    simp [basic_concurrent_queue.push_some, ho1]
  rw [hp, push_some_loop_eq]
  refine ⟨rfl, rfl, ?_, ?_⟩
  · intro h
    have h1 : q.capacity_ ≤ q.the_queue_.length := h
    simp only [basic_concurrent_queue.capacity, basic_concurrent_queue.size]
    omega
  · intro h
    have h1 : q.the_queue_.length ≤ q.capacity_ := h
    simp only [basic_concurrent_queue.capacity, basic_concurrent_queue.size,
      List.length_append, List.length_take]
    omega

/-- An open queue of capacity 2 that holds one element, and a range of three. -/
theorem push_some_pushes_longest_prefix_that_fits_witness :
    ((basic_concurrent_queue.ctor 2 true : basic_concurrent_queue Nat).push_and_notify
      1).is_open = true ∧
    (((basic_concurrent_queue.ctor 2 true : basic_concurrent_queue Nat).push_and_notify
      1).push_some [7, 8, 9]).1 = [8, 9] ∧
    (((basic_concurrent_queue.ctor 2 true : basic_concurrent_queue Nat).push_and_notify
      1).push_some [7, 8, 9]).2.the_queue_ = [1, 7] ∧
    (((basic_concurrent_queue.ctor 2 true : basic_concurrent_queue Nat).push_and_notify
      1).push_some [7, 8, 9]).2.size ≤
      (((basic_concurrent_queue.ctor 2 true : basic_concurrent_queue Nat).push_and_notify
        1).push_some [7, 8, 9]).2.capacity :=
  ⟨rfl, by decide, by decide,
    (push_some_pushes_longest_prefix_that_fits
      ((basic_concurrent_queue.ctor 2 true : basic_concurrent_queue Nat).push_and_notify 1) rfl
      [7, 8, 9]).2.2.2 (by decide)⟩

/-- Claim C15 as stated fails on an open queue that is over its capacity: the
queue of capacity 1 that `push_all` has filled with 1 and 2 is open, and after
`push_some` of the range `[3]`, which pushes nothing, `size() ≤ capacity()`
does not hold. -/
theorem push_some_leaves_overfull_queue_overfull :
    basic_concurrent_queue.overfull_example.is_open = true ∧
    (basic_concurrent_queue.overfull_example.push_some [3]).1 = [3] ∧
    (basic_concurrent_queue.overfull_example.push_some [3]).2.size = 2 ∧
    (basic_concurrent_queue.overfull_example.push_some [3]).2.capacity = 1 ∧
    ¬ (basic_concurrent_queue.overfull_example.push_some [3]).2.size ≤
      (basic_concurrent_queue.overfull_example.push_some [3]).2.capacity := by
  decide

/-! ## The timed pushes -/

/-- When `pop` returns false the queue it leaves is empty and closed. -/
theorem pop_false_empty_and_closed (q : basic_concurrent_queue T) (popped_value : T)
    (ws : List (List (action T))) (h : (q.pop popped_value ws).ret = some false) :
    (q.pop popped_value ws).q.empty = true ∧ (q.pop popped_value ws).q.is_open = false := by
  have hs := wait_loop_suspended basic_concurrent_queue.empty_and_opened q ws
  unfold basic_concurrent_queue.pop at h ⊢
  simp only [] at h ⊢
  split at h
  · simp at h
  · rename_i h1
    rw [if_neg h1]
    rw [hs] at h1
    split at h
    · rename_i h2
      simp only [h2]
      simp only [basic_concurrent_queue.empty_and_opened, h2, List.isEmpty_nil, Bool.true_and,
        Bool.not_eq_true] at h1
      exact ⟨by simp [basic_concurrent_queue.empty, h2], h1⟩
    · simp at h

/-- The loop is left at once from an iterator that has ended. -/
theorem range_loop_of_ended (init : T) (it : iterator T) (q : basic_concurrent_queue T)
    (supply : List (List (List (action T)))) (hit : it.queue_ = false) :
    basic_concurrent_queue.range_loop init it q supply = some ([], it, q) := by
  have hne : it.ne (q.end init) = false := by
    simp [iterator.ne, iterator.ended, hit, basic_concurrent_queue.end, iterator.ctor]
  cases supply <;> simp [basic_concurrent_queue.range_loop, hne]

/-- A queue whose contents are empty is the queue with its contents set to
empty and no more notifications. -/
theorem eq_drained_of_empty (q : basic_concurrent_queue T) (hl : q.the_queue_ = []) :
    q =
      { q with
        the_queue_ := []
        full_cv_ := ⟨q.full_cv_.notify_one_calls + 0, q.full_cv_.notify_all_calls⟩ } := by
  cases q
  simp_all

/-- The loop over a closed queue, from an iterator that has not ended: it
visits the value the iterator holds and then what is queued, in order, and is
left with the iterator ended and the queue drained, provided there are
wake-ups on offer for one `++it` more than there are elements queued. -/
theorem range_loop_of_closed (init : T) (it : iterator T) (q : basic_concurrent_queue T)
    (supply : List (List (List (action T)))) (hq : q.opened_ = false) (hit : it.queue_ = true)
    (hs : q.the_queue_.length < supply.length) :
    (basic_concurrent_queue.range_loop init it q supply).map
        (fun r => (r.1, r.2.1.ended, r.2.2)) =
      some (it.value_ :: q.the_queue_, true,
        { q with
          the_queue_ := []
          full_cv_ :=
            ⟨q.full_cv_.notify_one_calls + q.the_queue_.length, q.full_cv_.notify_all_calls⟩ }) := by
  induction supply generalizing it q with
  | nil => simp at hs
  | cons ws supply ih =>
    have hne : it.ne (q.end init) = true := by
      simp [iterator.ne, iterator.ended, hit]
    unfold basic_concurrent_queue.range_loop
    rw [if_pos hne]
    simp only [iterator.incr, pop_of_closed q hq]
    cases hl : q.the_queue_ with
    | nil =>
      simp only [Bool.not_false, if_true, reduceCtorEq, if_false]
      rw [range_loop_of_ended init _ q supply rfl]
      simp only [Option.map_some', iterator.ended, Bool.not_false, List.length_nil,
        Option.some.injEq, Prod.mk.injEq, true_and]
      exact eq_drained_of_empty q hl
    | cons front rest =>
      have hs1 : (q.pop_and_notify rest).the_queue_.length < supply.length := by
        rw [hl] at hs
        simp only [List.length_cons] at hs
        simp only [basic_concurrent_queue.pop_and_notify]
        omega
      have := ih { queue_ := it.queue_, value_ := front, popped_ := true }
        (q.pop_and_notify rest) hq hit hs1
      simp only [Bool.not_true, Bool.false_eq_true, if_false, reduceCtorEq]
      cases hr : basic_concurrent_queue.range_loop init
          { queue_ := it.queue_, value_ := front, popped_ := true } (q.pop_and_notify rest)
          supply with
      | none => rw [hr] at this; simp at this
      | some r =>
        rw [hr] at this
        simp only [Option.map_some', Option.some.injEq, Prod.mk.injEq] at this
        obtain ⟨h1, h2, h3⟩ := this
        simp only [Option.map_some', Option.some.injEq, Prod.mk.injEq]
        refine ⟨by rw [h1]; simp [basic_concurrent_queue.pop_and_notify], h2, ?_⟩
        rw [h3]
        simp only [basic_concurrent_queue.pop_and_notify, CVType.notify_one, List.length_cons,
          basic_concurrent_queue.mk.injEq, CVType.mk.injEq, true_and, and_true]
        omega

/-- Claim C17: on a closed queue with contents `x1..xK` the loop from `begin()`
while the iterator differs from `end()` visits exactly `x1..xK` in that order
and is then left, with the iterator ended and the queue empty (the not-full
condition notified K times, nothing else changed), whenever wake-ups are on
offer for the `K + 1` calls of `pop` it makes.  For `K = 0`, `begin()` already
equals `end()`.  An iterator that `++` has been applied to compares equal to
`end()` exactly when the `pop` in it returned false, and the queue is then
empty and closed. -/
theorem iteration_drains_closed_queue (q : basic_concurrent_queue T) (init : T)
    (supply : List (List (List (action T)))) (hq : q.is_open = false)
    (hs : q.size + 1 ≤ supply.length) :
    (q.range_for init supply).map (fun r => (r.1, r.2.1.ended, r.2.2)) =
      some (q.the_queue_, true,
        { q with
          the_queue_ := []
          full_cv_ := ⟨q.full_cv_.notify_one_calls + q.size, q.full_cv_.notify_all_calls⟩ }) ∧
    (q.the_queue_ = [] → ∀ ws, (q.begin init ws).1.ne (q.end init) = false) ∧
    (∀ (it : iterator T) (q2 : basic_concurrent_queue T) (ws : List (List (action T))),
      it.queue_ = true →
      (((it.incr q2 ws).1.ne (q2.end init) = false ↔ (it.incr q2 ws).2.ret = some false) ∧
        ((it.incr q2 ws).2.ret = some false →
          (it.incr q2 ws).2.q.empty = true ∧ (it.incr q2 ws).2.q.is_open = false))) := by
  have hq1 : q.opened_ = false := hq
  have hs0 : q.the_queue_.length + 1 ≤ supply.length := hs
  refine ⟨?_, ?_, ?_⟩
  · cases supply with
    | nil => simp at hs0
    | cons ws supply =>
      simp only [List.length_cons] at hs0
      simp only [basic_concurrent_queue.range_for, basic_concurrent_queue.begin, iterator.incr,
        pop_of_closed q hq1, basic_concurrent_queue.size]
      cases hl : q.the_queue_ with
      | nil =>
        simp only [Bool.not_false, if_true, reduceCtorEq, if_false]
        rw [range_loop_of_ended init _ q supply rfl]
        simp only [Option.map_some', iterator.ended, Bool.not_false, List.length_nil,
          Option.some.injEq, Prod.mk.injEq, true_and]
        exact eq_drained_of_empty q hl
      | cons front rest =>
        have hs1 : (q.pop_and_notify rest).the_queue_.length < supply.length := by
          rw [hl] at hs0
          simp only [List.length_cons] at hs0
          simp only [basic_concurrent_queue.pop_and_notify]
          omega
        have := range_loop_of_closed init { queue_ := true, value_ := front, popped_ := true }
          (q.pop_and_notify rest) supply hq1 rfl hs1
        simp only [Bool.not_true, Bool.false_eq_true, if_false, reduceCtorEq]
        rw [this]
        simp only [basic_concurrent_queue.pop_and_notify, CVType.notify_one, List.length_cons,
          Option.some.injEq, Prod.mk.injEq, basic_concurrent_queue.mk.injEq, CVType.mk.injEq,
          true_and, and_true]
        omega
  · intro hl ws
    simp [basic_concurrent_queue.begin, iterator.incr, pop_of_closed q hq1, hl, iterator.ne,
      iterator.ended, basic_concurrent_queue.end, iterator.ctor]
  · intro it q2 ws hit
    have hret : (it.incr q2 ws).2 = q2.pop it.value_ ws := by
      simp only [iterator.incr]
      cases (q2.pop it.value_ ws).ret <;> rfl
    rw [hret]
    constructor
    · simp only [iterator.incr]
      cases hr : (q2.pop it.value_ ws).ret with
      | none =>
        simp [iterator.ne, iterator.ended, hit]
      | some popped =>
        cases popped <;>
          simp [iterator.ne, iterator.ended, hit, basic_concurrent_queue.end, iterator.ctor]
    · intro h
      exact pop_false_empty_and_closed q2 it.value_ ws h

/-- The closed queue that holds 1 and 2, with wake-ups on offer for three
calls of `pop`: the loop visits 1, 2 and leaves the queue empty. -/
theorem iteration_drains_closed_queue_witness :
    basic_concurrent_queue.closed_example.is_open = false ∧
    basic_concurrent_queue.closed_example.size + 1 ≤
      ([[], [[action.open]], []] : List (List (List (action Nat)))).length ∧
    (basic_concurrent_queue.closed_example.range_for 0 [[], [[action.open]], []]).map
        (fun r => (r.1, r.2.1.ended, r.2.2.the_queue_)) = some ([1, 2], true, []) ∧
    ((basic_concurrent_queue.closed_example.range_for 0 [[], [[action.open]], []]).map
        (fun r => (r.1, r.2.1.ended, r.2.2)) =
      some (basic_concurrent_queue.closed_example.the_queue_, true,
        { basic_concurrent_queue.closed_example with
          the_queue_ := []
          full_cv_ :=
            ⟨basic_concurrent_queue.closed_example.full_cv_.notify_one_calls +
                basic_concurrent_queue.closed_example.size,
              basic_concurrent_queue.closed_example.full_cv_.notify_all_calls⟩ })) :=
  ⟨rfl, by decide, by decide,
    (iteration_drains_closed_queue basic_concurrent_queue.closed_example 0
      [[], [[action.open]], []] rfl (by decide)).1⟩

end queue_members

/-! ## Condition variables -/

section condition_variables

variable {σ E : Type}

/-- Claim C12: a call of `condition_variable_any::wait`, `wait_for` or
`wait_until` by a caller that holds the user's lock `m` (and not the internal
mutex) exits, by a return or by a failure, with `m` locked and the internal
mutex released; the three waits make the same calls on the locks.  If the
constructor of `lk` raises, no call is made on either lock; if `m.unlock()`
raises, the internal mutex is locked and unlocked and `m` is not touched; and
otherwise the calls are, in this order: lock the internal mutex, unlock `m`,
the inner wait (which releases the internal mutex, suspends, and re-acquires
it), unlock the internal mutex if `lk` owns it, lock `m`.  So `m` is unlocked
only after the internal mutex has been acquired, and it is locked again
exactly when it was unlocked, and once. -/
theorem lock_on_exit_keeps_user_lock_held (env : any_env E) (l : any_locks)
    (hm : l.m_locked = true) (hx : l.mtx_locked = false) :
    (condition_variable_any.wait env l).2.m_locked = true ∧
    (condition_variable_any.wait env l).2.mtx_locked = false ∧
    (condition_variable_any.wait_for env l).2 = (condition_variable_any.wait env l).2 ∧
    (condition_variable_any.wait_until env l).2 = (condition_variable_any.wait env l).2 ∧
    (∀ e, env.lk_ctor = some e → condition_variable_any.wait env l = (Except.error e, l)) ∧
    (∀ e, env.lk_ctor = none → env.m_unlock = some e →
      condition_variable_any.wait env l =
        (Except.error e,
          { l with log := l.log ++ [lock_event.mtx_lock, lock_event.mtx_unlock] })) ∧
    (env.lk_ctor = none → env.m_unlock = none →
      (condition_variable_any.wait env l).1 = env.inner.map (fun _ => ()) ∧
      (condition_variable_any.wait_for env l).1 = env.inner ∧
      (condition_variable_any.wait_until env l).1 = env.inner ∧
      (condition_variable_any.wait env l).2.log =
        l.log ++
          [lock_event.mtx_lock, lock_event.m_unlock, lock_event.mtx_unlock,
            lock_event.suspended] ++
          (if (cond_wait env l).2.1 then [lock_event.mtx_lock, lock_event.mtx_unlock] else []) ++
          [lock_event.m_lock]) ∧
    (lock_event.m_unlock ∈ (condition_variable_any.wait env l).2.log.drop l.log.length →
      lock_event.mtx_lock ∈
        ((condition_variable_any.wait env l).2.log.drop l.log.length).takeWhile
          (fun ev => decide (ev ≠ lock_event.m_unlock))) ∧
    ((condition_variable_any.wait env l).2.log.drop l.log.length).count lock_event.m_lock =
      ((condition_variable_any.wait env l).2.log.drop l.log.length).count lock_event.m_unlock ∧
    ((condition_variable_any.wait env l).2.log.drop l.log.length).count lock_event.m_lock ≤ 1 := by
  rcases env with ⟨lk, mu, inner, owns⟩
  rcases l with ⟨ml, xl, log⟩
  simp only at hm hx
  subst hm hx
  cases lk with
  | some e =>
    simp [condition_variable_any.wait, condition_variable_any.wait_for,
      condition_variable_any.wait_until, condition_variable_any.guarded_wait,
      detail.lock_on_exit.ctor, detail.lock_on_exit.dtor, Except.map]
  | none =>
    cases mu with
    | some e =>
      simp [condition_variable_any.wait, condition_variable_any.wait_for,
        condition_variable_any.wait_until, condition_variable_any.guarded_wait,
        detail.lock_on_exit.ctor, detail.lock_on_exit.dtor, detail.lock_on_exit.activate,
        unique_lock_ctor, unique_lock_dtor, Except.map, List.takeWhile]
    | none =>
      cases inner with
      | ok st =>
        simp [condition_variable_any.wait, condition_variable_any.wait_for,
          condition_variable_any.wait_until, condition_variable_any.guarded_wait,
          detail.lock_on_exit.ctor, detail.lock_on_exit.dtor, detail.lock_on_exit.activate,
          unique_lock_ctor, unique_lock_dtor, cond_wait, Except.map, List.takeWhile]
      | error e =>
        cases owns <;>
          simp [condition_variable_any.wait, condition_variable_any.wait_for,
            condition_variable_any.wait_until, condition_variable_any.guarded_wait,
            detail.lock_on_exit.ctor, detail.lock_on_exit.dtor, detail.lock_on_exit.activate,
            unique_lock_ctor, unique_lock_dtor, cond_wait, Except.map, List.takeWhile]

/-- A caller that holds `m`, and an inner wait that raises: the call exits with
`m` locked and the internal mutex released; and the calls made on the locks
when the wait is notified, and when it fails at each of the three places. -/
theorem lock_on_exit_keeps_user_lock_held_witness :
    condition_variable_any.held_example.m_locked = true ∧
    condition_variable_any.held_example.mtx_locked = false ∧
    ((condition_variable_any.wait condition_variable_any.inner_fails_example
        condition_variable_any.held_example).2.m_locked = true ∧
      (condition_variable_any.wait condition_variable_any.inner_fails_example
        condition_variable_any.held_example).2.mtx_locked = false) ∧
    (condition_variable_any.wait condition_variable_any.notified_example
        condition_variable_any.held_example).2.log =
      [lock_event.mtx_lock, lock_event.m_unlock, lock_event.mtx_unlock, lock_event.suspended,
        lock_event.mtx_lock, lock_event.mtx_unlock, lock_event.m_lock] ∧
    (condition_variable_any.wait condition_variable_any.inner_fails_example
        condition_variable_any.held_example).2.log =
      [lock_event.mtx_lock, lock_event.m_unlock, lock_event.mtx_unlock, lock_event.suspended,
        lock_event.mtx_lock, lock_event.mtx_unlock, lock_event.m_lock] ∧
    (condition_variable_any.wait condition_variable_any.unlock_fails_example
        condition_variable_any.held_example).2.log =
      [lock_event.mtx_lock, lock_event.mtx_unlock] ∧
    (condition_variable_any.wait condition_variable_any.lk_fails_example
        condition_variable_any.held_example).2.log = [] :=
  ⟨rfl, rfl,
    ⟨(lock_on_exit_keeps_user_lock_held condition_variable_any.inner_fails_example
        condition_variable_any.held_example rfl rfl).1,
      (lock_on_exit_keeps_user_lock_held condition_variable_any.inner_fails_example
        condition_variable_any.held_example rfl rfl).2.1⟩,
    by decide, by decide, by decide, by decide⟩

/-! ### Waiting for a predicate -/

/-- The loop of `condition_variable::wait(lock, pred)` is left suspended
exactly when the predicate does not hold of the state it stopped at. -/
theorem wait_pred_suspended (pred : σ → Bool) (s : σ) (ws : List σ) :
    (condition_variable.wait_pred pred s ws).suspended =
      !pred (condition_variable.wait_pred pred s ws).s := by
  induction ws generalizing s with
  | nil => simp [condition_variable.wait_pred]
  | cons s1 rest ih =>
    unfold condition_variable.wait_pred
    split
    · exact ih _
    · rename_i h
      simpa using h

/-- While `wait(lock, pred)` is suspended every wake-up on offer has been used
and the predicate held at none of them. -/
theorem wait_pred_suspended_all (pred : σ → Bool) (s : σ) (ws : List σ)
    (h : (condition_variable.wait_pred pred s ws).suspended = true) :
    (condition_variable.wait_pred pred s ws).waits = ws.length ∧
      ∀ s1 ∈ s :: ws, pred s1 = false := by
  induction ws generalizing s with
  | nil =>
    simp only [condition_variable.wait_pred, Bool.not_eq_true'] at h
    simp [condition_variable.wait_pred, h]
  | cons s1 rest ih =>
    unfold condition_variable.wait_pred at h ⊢
    split at h
    · rename_i hp
      rw [if_pos hp]
      have := ih s1 h
      have hp1 : pred s = false := by simpa using hp
      refine ⟨by simp [this.1], ?_⟩
      intro s2 hs2
      rcases List.mem_cons.mp hs2 with h2 | h2
      · rw [h2]; exact hp1
      · exact this.2 s2 h2
    · simp at h

/-- The loop of `condition_variable_any::wait(m, pred)`: when the call returns
the predicate holds of the state at its last evaluation. -/
theorem any_wait_pred_returns (pred : σ → Bool) (s : σ) (l : any_locks)
    (ws : List (any_wakeup σ E))
    (h : (condition_variable_any.wait_pred pred s l ws).ret = some (Except.ok ())) :
    pred (condition_variable_any.wait_pred pred s l ws).s = true := by
  induction ws generalizing s l with
  | nil =>
    unfold condition_variable_any.wait_pred at h ⊢
    split at h
    · simp at h
    · rename_i hp
      rw [if_neg hp]
      simpa using hp
  | cons w rest ih =>
    unfold condition_variable_any.wait_pred at h ⊢
    split at h
    · rename_i hp
      rw [if_pos hp]
      rcases hw : condition_variable_any.wait w.env l with ⟨r, l1⟩
      rw [hw] at h
      cases r with
      | error e => simp at h
      | ok u => exact ih _ _ h
    · rename_i hp
      rw [if_neg hp]
      simpa using hp

/-- Claim C13: `condition_variable::wait(lock, pred)` and
`condition_variable_any::wait(m, pred)` return only when the predicate holds:
for every predicate and every list of wake-ups, spurious ones included, the
predicate holds of the state at its last evaluation when the call has
returned; when the predicate holds on entry the call returns without any
wait, leaving the state and the locks as they were.  (While the first call is
still suspended every wake-up has been used and the predicate held at none.) -/
theorem wait_returns_only_when_predicate_holds (pred : σ → Bool) (s : σ) (ws : List σ)
    (l : any_locks) (aws : List (any_wakeup σ E)) :
    ((condition_variable.wait_pred pred s ws).suspended = false →
      pred (condition_variable.wait_pred pred s ws).s = true) ∧
    (pred s = true → condition_variable.wait_pred pred s ws = ⟨s, 0, false⟩) ∧
    ((condition_variable.wait_pred pred s ws).suspended = true →
      (condition_variable.wait_pred pred s ws).waits = ws.length ∧
        ∀ s1 ∈ s :: ws, pred s1 = false) ∧
    ((condition_variable_any.wait_pred pred s l aws).ret = some (Except.ok ()) →
      pred (condition_variable_any.wait_pred pred s l aws).s = true) ∧
    (pred s = true →
      (condition_variable_any.wait_pred pred s l aws).ret = some (Except.ok ()) ∧
      (condition_variable_any.wait_pred pred s l aws).s = s ∧
      (condition_variable_any.wait_pred pred s l aws).l = l ∧
      (condition_variable_any.wait_pred pred s l aws).waits = 0) := by
  refine ⟨?_, ?_, wait_pred_suspended_all pred s ws, any_wait_pred_returns pred s l aws, ?_⟩
  · intro h
    rw [wait_pred_suspended] at h
    simpa using h
  · intro h
    cases ws <;> simp [condition_variable.wait_pred, h]
  · intro h
    cases aws <;> simp [condition_variable_any.wait_pred, h]

/-- A counter that other fibers raise, and the predicate "the counter is over
2": the wait returns at the first wake-up that finds 3, after one spurious
wake-up. -/
theorem wait_example :
    condition_variable.wait_pred (fun n => decide (n > 2)) 0 [1, 1, 3, 4] = ⟨3, 3, false⟩ ∧
    condition_variable.wait_pred (fun n => decide (n > 2)) 0 [1, 1] = ⟨1, 2, true⟩ ∧
    condition_variable.wait_pred (fun n => decide (n > 2)) 5 [1, 1] = ⟨5, 0, false⟩ ∧
    (condition_variable_any.wait_pred (fun n => decide (n > 2)) 0
      condition_variable_any.held_example
      [⟨condition_variable_any.notified_example, 1⟩,
        ⟨condition_variable_any.notified_example, 3⟩]).s = 3 ∧
    (condition_variable_any.wait_pred (fun n => decide (n > 2)) 0
      condition_variable_any.held_example
      [⟨condition_variable_any.notified_example, 1⟩,
        ⟨condition_variable_any.notified_example, 3⟩]).waits = 2 := by
  decide

/-! ### Timed waits for a predicate -/

theorem wait_until_pred_eq_wait_for_pred (pred : σ → Bool) (s : σ) (ws : List (cv_wakeup σ)) :
    condition_variable.wait_until_pred pred s ws = condition_variable.wait_for_pred pred s ws := by
  induction ws generalizing s with
  | nil => simp [condition_variable.wait_until_pred, condition_variable.wait_for_pred]
  | cons w rest ih =>
    simp [condition_variable.wait_until_pred, condition_variable.wait_for_pred,
      condition_variable.wait_until, ih]

/-- The flag a timed predicate wait returns is the value of the predicate at
its last evaluation. -/
theorem wait_for_pred_ret (pred : σ → Bool) (s : σ) (ws : List (cv_wakeup σ)) (b : Bool)
    (h : (condition_variable.wait_for_pred pred s ws).ret = some b) :
    b = pred (condition_variable.wait_for_pred pred s ws).s := by
  induction ws generalizing s with
  | nil =>
    unfold condition_variable.wait_for_pred at h ⊢
    split at h
    · simp at h
    · rename_i hp
      rw [if_neg hp]
      simp only [Option.some.injEq] at h
      rw [← h]
      simpa using hp
  | cons w rest ih =>
    unfold condition_variable.wait_for_pred at h ⊢
    split at h
    · rename_i hp
      rw [if_pos hp]
      split at h
      · rename_i ht
        rw [if_pos ht]
        simp only [Option.some.injEq] at h
        exact h.symm
      · rename_i ht
        rw [if_neg ht]
        exact ih _ h
    · rename_i hp
      rw [if_neg hp]
      simp only [Option.some.injEq] at h
      rw [← h]
      simpa using hp

/-- A timed predicate wait returns false only after a wait, the last one, that
reported a timeout and left a state of which the predicate does not hold. -/
theorem wait_for_pred_false (pred : σ → Bool) (s : σ) (ws : List (cv_wakeup σ))
    (h : (condition_variable.wait_for_pred pred s ws).ret = some false) :
    0 < (condition_variable.wait_for_pred pred s ws).waits ∧
      ∃ w, ws[(condition_variable.wait_for_pred pred s ws).waits - 1]? = some w ∧
        w.status = cv_status.timeout ∧
        w.seen = (condition_variable.wait_for_pred pred s ws).s ∧ pred w.seen = false := by
  induction ws generalizing s with
  | nil =>
    unfold condition_variable.wait_for_pred at h
    split at h <;> simp at h
  | cons w rest ih =>
    unfold condition_variable.wait_for_pred at h ⊢
    split at h
    · rename_i hp
      rw [if_pos hp]
      split at h
      · rename_i ht
        rw [if_pos ht]
        simp only [Option.some.injEq] at h
        refine ⟨Nat.one_pos, w, by simp, ?_, rfl, h⟩
        exact ht.symm
      · rename_i ht
        rw [if_neg ht]
        obtain ⟨hpos, w1, hw1, hst, hseen, hpred⟩ := ih _ h
        refine ⟨Nat.succ_pos _, w1, ?_, hst, hseen, hpred⟩
        simp only [Nat.add_sub_cancel]
        have e : (condition_variable.wait_for_pred pred (condition_variable.wait_for w).2
            rest).waits =
            ((condition_variable.wait_for_pred pred (condition_variable.wait_for w).2
              rest).waits - 1) + 1 := by omega
        rw [e, List.getElem?_cons_succ]
        exact hw1
    · simp at h

/-- While a timed predicate wait is suspended every wake-up on offer has been
used, none reported a timeout, and the predicate held at none of them. -/
theorem wait_for_pred_none (pred : σ → Bool) (s : σ) (ws : List (cv_wakeup σ))
    (h : (condition_variable.wait_for_pred pred s ws).ret = none) :
    (condition_variable.wait_for_pred pred s ws).waits = ws.length ∧
      pred s = false ∧
      ∀ w ∈ ws, w.status = cv_status.no_timeout ∧ pred w.seen = false := by
  induction ws generalizing s with
  | nil =>
    unfold condition_variable.wait_for_pred at h ⊢
    split at h
    · rename_i hp
      rw [if_pos hp]
      exact ⟨rfl, by simpa using hp, by simp⟩
    · simp at h
  | cons w rest ih =>
    unfold condition_variable.wait_for_pred at h ⊢
    split at h
    · rename_i hp
      rw [if_pos hp]
      split at h
      · simp at h
      · rename_i ht
        rw [if_neg ht]
        obtain ⟨h1, h2, h3⟩ := ih _ h
        refine ⟨by simp [h1], by simpa using hp, ?_⟩
        intro w1 hw1
        rcases List.mem_cons.mp hw1 with e | e
        · subst e
          refine ⟨?_, h2⟩
          cases hst : w1.status with
          | no_timeout => rfl
          | timeout =>
            exact absurd (by simp [condition_variable.wait_for, condition_variable.wait_rel, hst])
              ht
        · exact h3 w1 e
    · simp at h

/-- Claim C14: the predicate overloads of `condition_variable::wait_for` and
`wait_until` return the value of the predicate: for every predicate and every
list of wait outcomes, a returned flag is the value of the predicate at its
last evaluation, so it is true only if the predicate held then; it is false
only after a wait, the last one, that reported `cv_status::timeout` and after
which the predicate was false; and when the predicate holds on entry the call
returns true without any wait.  (While the call is suspended no wait has
timed out and the predicate has held at no evaluation.)  `wait_until` behaves
as `wait_for`. -/
theorem timed_wait_returns_predicate_value (pred : σ → Bool) (s : σ)
    (ws : List (cv_wakeup σ)) :
    (∀ b, (condition_variable.wait_for_pred pred s ws).ret = some b →
      b = pred (condition_variable.wait_for_pred pred s ws).s) ∧
    ((condition_variable.wait_for_pred pred s ws).ret = some false →
      0 < (condition_variable.wait_for_pred pred s ws).waits ∧
        ∃ w, ws[(condition_variable.wait_for_pred pred s ws).waits - 1]? = some w ∧
          w.status = cv_status.timeout ∧
          w.seen = (condition_variable.wait_for_pred pred s ws).s ∧ pred w.seen = false) ∧
    (pred s = true → condition_variable.wait_for_pred pred s ws = ⟨some true, s, 0⟩) ∧
    ((condition_variable.wait_for_pred pred s ws).ret = none →
      (condition_variable.wait_for_pred pred s ws).waits = ws.length ∧
        pred s = false ∧
        ∀ w ∈ ws, w.status = cv_status.no_timeout ∧ pred w.seen = false) ∧
    condition_variable.wait_until_pred pred s ws =
      condition_variable.wait_for_pred pred s ws := by
  refine ⟨fun b => wait_for_pred_ret pred s ws b, wait_for_pred_false pred s ws, ?_,
    wait_for_pred_none pred s ws, wait_until_pred_eq_wait_for_pred pred s ws⟩
  intro h
  cases ws <;> simp [condition_variable.wait_for_pred, h]

/-- The counter and the predicate "the counter is over 2": a notified wait that
finds 1, then a timed-out wait that finds 2 (false) or 3 (true). -/
theorem timed_wait_example :
    condition_variable.wait_for_pred (fun n => decide (n > 2)) 0
        [⟨1, cv_status.no_timeout⟩, ⟨2, cv_status.timeout⟩, ⟨9, cv_status.no_timeout⟩] =
      ⟨some false, 2, 2⟩ ∧
    condition_variable.wait_for_pred (fun n => decide (n > 2)) 0
        [⟨1, cv_status.no_timeout⟩, ⟨3, cv_status.timeout⟩] = ⟨some true, 3, 2⟩ ∧
    condition_variable.wait_until_pred (fun n => decide (n > 2)) 0
        [⟨1, cv_status.no_timeout⟩, ⟨3, cv_status.no_timeout⟩] = ⟨some true, 3, 2⟩ ∧
    condition_variable.wait_for_pred (fun n => decide (n > 2)) 7
        [⟨1, cv_status.timeout⟩] = ⟨some true, 7, 0⟩ ∧
    condition_variable.wait_for_pred (fun n => decide (n > 2)) 0
        [⟨1, cv_status.no_timeout⟩] = ⟨none, 1, 1⟩ := by
  decide

end condition_variables

end boost.green_thread
